import Mathlib

/-!
Shallow embedding of the BPMN auto-layout / connector-collision engine
(`src/app/bpmn-modeler/layout/*.ts`) and proofs about it.

Modelling conventions:
* JavaScript numbers are modelled as `ℚ`.  Every computation the theorems
  touch stays in the dyadic range where IEEE-754 doubles are exact
  (integers, halving), so `ℚ` is a faithful model there.
* JS `Map` objects are modelled as association lists in insertion order
  (`Map.forEach` iterates insertion order); `Map.get(k) ?? d` becomes an
  association-list lookup with default.
* The `nodesByRank` map is only ever read through `.get(r) ?? []`, so it is
  modelled directly as a total function `ℤ → List LayoutNode` defaulting
  to `[]`.
* Object references used only as identity tokens (`conn.source`,
  `conn.target`, element back-references) are modelled as `String` ids;
  JS `===` on those references becomes id equality.
* The in-place `while` loop of `assignRanks` is unbounded in the source;
  it is embedded with explicit fuel, returning `none` when the fuel is
  exhausted with a non-empty queue.  The source loop terminates with
  result `r` iff some fuel yields `some r`.
-/

namespace BpmnLayout

/-- `Point` from `layout.types.ts`: plain 2D coordinate. -/
structure Point where
  x : ℚ
  y : ℚ
deriving DecidableEq, Repr

/-- The three segment orientations of `layout.types.ts`. -/
inductive Orientation where
  | horizontal
  | vertical
  | diagonal
deriving DecidableEq, Repr

/-- `Segment` from `layout.types.ts`.  The orientation is a stored field
(the collision check trusts it rather than recomputing it). -/
structure Segment where
  connectionId : String
  p1 : Point
  p2 : Point
  orientation : Orientation
deriving DecidableEq, Repr

/-- `CollisionConflict` from `layout.types.ts` (the `reason` string is a
constant in the source and is omitted). -/
structure CollisionConflict where
  connection1 : String
  connection2 : String
  segment1 : Segment
  segment2 : Segment
deriving DecidableEq, Repr

/-- `LayoutConstants` from `layout.types.ts`. -/
structure LayoutConstants where
  colSpacing : ℚ
  rowSpacing : ℚ
  lanePadding : ℚ
  startXOffset : ℚ
  collisionThreshold : ℚ
  parallelOffset : ℚ
deriving DecidableEq, Repr

/-- `DEFAULT_LAYOUT_CONSTANTS` from `layout.types.ts`. -/
def DEFAULT_LAYOUT_CONSTANTS : LayoutConstants :=
  { colSpacing := 80
    rowSpacing := 30
    lanePadding := 80
    startXOffset := 150
    collisionThreshold := 5
    parallelOffset := 18 }

/-- `Math.abs` (kernel-reducible model). -/
def jsAbs (x : ℚ) : ℚ :=
  if x < 0 then -x else x

/-- `Math.min` (kernel-reducible model; NaN does not arise). -/
def jsMin (a b : ℚ) : ℚ :=
  if a ≤ b then a else b

/-- `Math.max` (kernel-reducible model; NaN does not arise). -/
def jsMax (a b : ℚ) : ℚ :=
  if a ≤ b then b else a

/-- `getOrientation` (`layout.collision.ts:4-8`): vertical if `|Δx| < 2`,
else horizontal if `|Δy| < 2`, else diagonal. -/
def getOrientation (p1 p2 : Point) : Orientation :=
  if jsAbs (p1.x - p2.x) < 2 then .vertical
  else if jsAbs (p1.y - p2.y) < 2 then .horizontal
  else .diagonal

/-- `checkIntervalOverlap` (`layout.collision.ts:10-17`). -/
def checkIntervalOverlap (min1 max1 min2 max2 : ℚ) : Bool :=
  jsMax min1 min2 < jsMin max1 max2 - 2

/-- `checkSegmentCollision` (`layout.collision.ts:19-43`). -/
def checkSegmentCollision (seg1 seg2 : Segment)
    (threshold : ℚ := DEFAULT_LAYOUT_CONSTANTS.collisionThreshold) : Bool :=
  if seg1.orientation ≠ seg2.orientation then false
  else if seg1.orientation = .horizontal then
    if jsAbs (seg1.p1.y - seg2.p1.y) > threshold then false
    else checkIntervalOverlap
      (jsMin seg1.p1.x seg1.p2.x) (jsMax seg1.p1.x seg1.p2.x)
      (jsMin seg2.p1.x seg2.p2.x) (jsMax seg2.p1.x seg2.p2.x)
  else if seg1.orientation = .vertical then
    if jsAbs (seg1.p1.x - seg2.p1.x) > threshold then false
    else checkIntervalOverlap
      (jsMin seg1.p1.y seg1.p2.y) (jsMax seg1.p1.y seg1.p2.y)
      (jsMin seg2.p1.y seg2.p2.y) (jsMax seg2.p1.y seg2.p2.y)
  else false

/-- `extractSegments` (`layout.collision.ts:45-59`): one segment per
adjacent waypoint pair, in index order. -/
def extractSegments (connectionId : String) : List Point → List Segment
  | p :: q :: rest =>
      { connectionId := connectionId, p1 := p, p2 := q,
        orientation := getOrientation p q } :: extractSegments connectionId (q :: rest)
  | _ => []

/-- `detectCollisions` (`layout.collision.ts:61-82`): the nested `i < j`
loop, skipping same-connection pairs. -/
def detectCollisions (allSegments : List Segment)
    (threshold : ℚ := DEFAULT_LAYOUT_CONSTANTS.collisionThreshold) :
    List CollisionConflict :=
  match allSegments with
  | [] => []
  | s :: rest =>
      rest.filterMap (fun t =>
        if s.connectionId = t.connectionId then none
        else if checkSegmentCollision s t threshold then
          some { connection1 := s.connectionId, connection2 := t.connectionId,
                 segment1 := s, segment2 := t }
        else none)
      ++ detectCollisions rest threshold

/-- The body of the `for` loop of `applySegmentDrift`: shift a point along
the perpendicular axis of `o`. -/
def driftPoint (o : Orientation) (offset : ℚ) (p : Point) : Point :=
  if o = .horizontal then { p with y := p.y + offset } else { p with x := p.x + offset }

/-- `applySegmentDrift` (`layout.collision.ts:84-100`): shift the two
endpoints of segment `segmentIndex` by `offset` along the perpendicular
axis (no-op when the index is out of range).  The source mutates the two
point objects; here the list is rebuilt with the two entries replaced. -/
def applySegmentDrift (waypoints : List Point) (segmentIndex : Nat)
    (offset : ℚ) (o : Orientation) : List Point :=
  if segmentIndex + 1 ≥ waypoints.length then waypoints
  else
    let p1 := waypoints.getD segmentIndex ⟨0, 0⟩
    let p2 := waypoints.getD (segmentIndex + 1) ⟨0, 0⟩
    (waypoints.set segmentIndex (driftPoint o offset p1)).set (segmentIndex + 1)
      (driftPoint o offset p2)

/-- The indexed loop of `applyDriftToWaypoints`: `i` is the index of the
head of the remaining list; entries with `2 ≤ i < len - 1` get their `y`
shifted. -/
def driftLoop (len : Nat) (offset : ℚ) : Nat → List Point → List Point
  | _, [] => []
  | i, p :: ps =>
      (if 2 ≤ i ∧ i + 1 < len then { p with y := p.y + offset } else p)
        :: driftLoop len offset (i + 1) ps

/-- `applyDriftToWaypoints` (`layout.collision.ts:102-109`): shift `y` of
every waypoint from index 2 through the second-to-last by `offset`. -/
def applyDriftToWaypoints (waypoints : List Point) (offset : ℚ) : List Point :=
  driftLoop waypoints.length offset 0 waypoints

/-- `ConnectionLike` (`layout.collision.ts:111-116`).  `source` / `target`
are opaque references compared with `===` in the source; they are modelled
as `String` identity tokens. -/
structure ConnectionLike where
  id : String
  waypoints : List Point
  source : String
  target : String
deriving DecidableEq, Repr

/-- Result record of `checkConnectionOverlapDetails`. -/
structure OverlapDetails where
  segmentIndex : Nat
  orientation : Orientation
  isPositiveDirection : Bool
deriving DecidableEq, Repr

/-- Inner `j` loop of `checkConnectionOverlapDetails`
(`layout.collision.ts:128-151`): scan `conn2`'s adjacent waypoint pairs
against the fixed segment `(p1, p2)` of orientation `o`, returning
`some isPositiveDirection` on the first colliding pair. -/
def overlapScanOther (check : Segment → Segment → Bool) (p1 p2 : Point)
    (o : Orientation) : List Point → Option Bool
  | q1 :: q2 :: rest =>
      let otherOrientation := getOrientation q1 q2
      if o ≠ otherOrientation then overlapScanOther check p1 p2 o (q2 :: rest)
      else
        let seg1 : Segment := { connectionId := "", p1 := p1, p2 := p2, orientation := o }
        let seg2 : Segment := { connectionId := "", p1 := q1, p2 := q2,
                                orientation := otherOrientation }
        if ¬ check seg1 seg2 then overlapScanOther check p1 p2 o (q2 :: rest)
        else if o = .diagonal then overlapScanOther check p1 p2 o (q2 :: rest)
        else if o = .horizontal then
          some (decide ((q1.y + q2.y) / 2 ≤ (p1.y + p2.y) / 2))
        else
          some (decide ((q1.x + q2.x) / 2 ≤ (p1.x + p2.x) / 2))
  | _ => none

/-- Outer `i` loop of `checkConnectionOverlapDetails`
(`layout.collision.ts:118-154`); `i` is the index of the head segment. -/
def overlapScan (check : Segment → Segment → Bool) (otherWps : List Point) :
    Nat → List Point → Option OverlapDetails
  | i, p1 :: p2 :: rest =>
      let o := getOrientation p1 p2
      match overlapScanOther check p1 p2 o otherWps with
      | some dir => some { segmentIndex := i, orientation := o, isPositiveDirection := dir }
      | none => overlapScan check otherWps (i + 1) (p2 :: rest)
  | _, _ => none

/-- `checkConnectionOverlapDetails` (`layout.collision.ts:118-154`). -/
def checkConnectionOverlapDetails (conn1Waypoints : List Point)
    (conn2 : ConnectionLike) (check : Segment → Segment → Bool) :
    Option OverlapDetails :=
  overlapScan check conn2.waypoints 0 conn1Waypoints

/-- The unordered-endpoint-pair test used twice in
`computeResolvedWaypoints` (`layout.collision.ts:168-172` and `185-187`). -/
def isParallelPair (a b : ConnectionLike) : Bool :=
  (a.source = b.source ∧ a.target = b.target) ∨
    (a.source = b.target ∧ a.target = b.source)

/-- The in-place stable `.sort((a, b) => a.id.localeCompare(b.id))` of
`layout.collision.ts:174`, modelled as a stable insertion sort with
`localeCompare` modelled as the lexicographic order on strings. -/
def idLe (a b : String) : Bool :=
  ! decide (b.data < a.data)

/-- Insertion step of the stable sort. -/
def orderedInsertById (c : ConnectionLike) : List ConnectionLike → List ConnectionLike
  | [] => [c]
  | d :: ds => if idLe c.id d.id then c :: d :: ds else d :: orderedInsertById c ds

/-- Sort connections by id (model of `Array.prototype.sort`, which is
stable). -/
def sortById : List ConnectionLike → List ConnectionLike
  | [] => []
  | c :: cs => orderedInsertById c (sortById cs)

/-- The body of the `for (const other of otherConnections)` loop of
`computeResolvedWaypoints` (`layout.collision.ts:184-205`): skip parallel
connections, otherwise nudge the first colliding segment. -/
def nudgeStep (targetConnection : ConnectionLike) (constants : LayoutConstants)
    (acc : List Point × Bool) (other : ConnectionLike) : List Point × Bool :=
  if isParallelPair targetConnection other then acc
  else
    match checkConnectionOverlapDetails acc.1 other
        (fun s1 s2 => checkSegmentCollision s1 s2 constants.collisionThreshold) with
    | some overlap =>
        let direction : ℚ := if overlap.isPositiveDirection then 1 else -1
        (applySegmentDrift acc.1 overlap.segmentIndex
          (constants.parallelOffset * direction) overlap.orientation, true)
    | none => acc

/-- `computeResolvedWaypoints` (`layout.collision.ts:156-208`): copy the
target's waypoints, apply the parallel fan-out drift, then the pairwise
overlap nudges, returning the new waypoint list and whether anything was
marked updated. -/
def computeResolvedWaypoints (targetConnection : ConnectionLike)
    (otherConnections : List ConnectionLike)
    (constants : LayoutConstants := DEFAULT_LAYOUT_CONSTANTS) :
    List Point × Bool :=
  let waypoints := targetConnection.waypoints.map (fun w => Point.mk w.x w.y)
  if waypoints.length < 2 then (waypoints, false)
  else
    let parallelGroup := otherConnections.filter (fun other => isParallelPair targetConnection other)
    let afterParallel :=
      if parallelGroup.length > 0 then
        let allParallel := sortById (targetConnection :: parallelGroup)
        let index := allParallel.findIdx (fun c => c.id = targetConnection.id)
        let n := allParallel.length
        let offset := ((index : ℚ) - ((n : ℚ) - 1) / 2) * constants.parallelOffset
        if jsAbs offset > 1 then (applyDriftToWaypoints waypoints offset, true)
        else (waypoints, false)
      else (waypoints, false)
    otherConnections.foldl (nudgeStep targetConnection constants) afterParallel

/-- `computeManhattanWaypoints` (`layout.waypoints.ts:3-29`): exit at the
source box's right-edge center, two bend points (at the horizontal
midpoint for forward flow, else at `targetX - 20`), enter at the target
box's left-edge center.  The source pushes 1 + 2 + 1 = 4 points. -/
def computeManhattanWaypoints (sourceX sourceY sourceWidth sourceHeight
    targetX targetY targetWidth targetHeight : ℚ) : List Point :=
  let sourceCenter : Point := ⟨sourceX + sourceWidth / 2, sourceY + sourceHeight / 2⟩
  let targetCenter : Point := ⟨targetX + targetWidth / 2, targetY + targetHeight / 2⟩
  let midX := (sourceX + sourceWidth + targetX) / 2
  let bends : List Point :=
    if targetX > sourceX + sourceWidth + 20 then
      [⟨midX, sourceCenter.y⟩, ⟨midX, targetCenter.y⟩]
    else
      [⟨targetX - 20, sourceCenter.y⟩, ⟨targetX - 20, targetCenter.y⟩]
  ⟨sourceX + sourceWidth, sourceCenter.y⟩ :: bends ++ [⟨targetX, targetCenter.y⟩]

/-! ### C1: the Manhattan route -/

/-- Counterexample for C1: at a concrete forward-flow input the route has
4 waypoints, not the 5 the claim states. -/
theorem computeManhattanWaypoints_length_ne_five :
    (computeManhattanWaypoints 0 0 100 80 300 100 100 80).length ≠ 5 := by
  norm_num [computeManhattanWaypoints]

/-- C1 (amended): for every pair of boxes the route has exactly 4 points;
the first is the source box's right-edge center, the last the target
box's left-edge center, and the two intermediate bend points share an x
coordinate, the first at the source's center height and the second at the
target's center height. -/
theorem computeManhattanWaypoints_spec (sx sy sw sh tx ty tw tgtH : ℚ) :
    (computeManhattanWaypoints sx sy sw sh tx ty tw tgtH).length = 4 ∧
    (computeManhattanWaypoints sx sy sw sh tx ty tw tgtH)[0]?
      = some ⟨sx + sw, sy + sh / 2⟩ ∧
    (computeManhattanWaypoints sx sy sw sh tx ty tw tgtH)[3]?
      = some ⟨tx, ty + tgtH / 2⟩ ∧
    ∃ bx : ℚ,
      (computeManhattanWaypoints sx sy sw sh tx ty tw tgtH)[1]?
        = some ⟨bx, sy + sh / 2⟩ ∧
      (computeManhattanWaypoints sx sy sw sh tx ty tw tgtH)[2]?
        = some ⟨bx, ty + tgtH / 2⟩ := by
  simp only [computeManhattanWaypoints]
  split_ifs <;> exact ⟨rfl, rfl, rfl, _, rfl, rfl⟩

/-! ### C6: orientation classification -/

/-- C6: `getOrientation` classifies `(0,0)-(0,5)` as vertical,
`(0,0)-(5,0)` as horizontal, `(0,0)-(5,5)` as diagonal and `(0,0)-(1,1)`
as vertical; and in general any pair of points whose coordinates differ by
less than 2 on both axes is classified vertical, because the vertical test
is checked first. -/
theorem getOrientation_classification :
    getOrientation ⟨0, 0⟩ ⟨0, 5⟩ = .vertical ∧
    getOrientation ⟨0, 0⟩ ⟨5, 0⟩ = .horizontal ∧
    getOrientation ⟨0, 0⟩ ⟨5, 5⟩ = .diagonal ∧
    getOrientation ⟨0, 0⟩ ⟨1, 1⟩ = .vertical ∧
    ∀ p1 p2 : Point, jsAbs (p1.x - p2.x) < 2 → jsAbs (p1.y - p2.y) < 2 →
      getOrientation p1 p2 = .vertical := by
  refine ⟨?_, ?_, ?_, ?_, ?_⟩
  · norm_num [getOrientation, jsAbs]
  · norm_num [getOrientation, jsAbs]
  · norm_num [getOrientation, jsAbs]
  · norm_num [getOrientation, jsAbs]
  · intro p1 p2 hx _
    unfold getOrientation
    rw [if_pos hx]

/-- Witness for C6: the general tie-breaking part applied at the concrete
pair `(0,0)-(1,1)`. -/
theorem getOrientation_classification_witness :
    getOrientation ⟨0, 0⟩ ⟨1, 1⟩ = .vertical :=
  getOrientation_classification.2.2.2.2 ⟨0, 0⟩ ⟨1, 1⟩
    (by norm_num [jsAbs]) (by norm_num [jsAbs])

/-! ### C7: no false collision on touching endpoints -/

/-- C7: two horizontal segments at the same `y` whose x-ranges abut
(`[0,10]` and `[10,20]`) are not reported as colliding; and in general a
reported collision requires equal orientations and a strictly
more-than-2-unit overlap of the projections on the aligned axis. -/
theorem checkSegmentCollision_requires_overlap :
    checkSegmentCollision ⟨"c1", ⟨0, 0⟩, ⟨10, 0⟩, .horizontal⟩
      ⟨"c2", ⟨10, 0⟩, ⟨20, 0⟩, .horizontal⟩ 5 = false ∧
    ∀ (s1 s2 : Segment) (th : ℚ), checkSegmentCollision s1 s2 th = true →
      s1.orientation = s2.orientation ∧
      ((s1.orientation = .horizontal ∧
          2 < jsMin (jsMax s1.p1.x s1.p2.x) (jsMax s2.p1.x s2.p2.x)
              - jsMax (jsMin s1.p1.x s1.p2.x) (jsMin s2.p1.x s2.p2.x)) ∨
        (s1.orientation = .vertical ∧
          2 < jsMin (jsMax s1.p1.y s1.p2.y) (jsMax s2.p1.y s2.p2.y)
              - jsMax (jsMin s1.p1.y s1.p2.y) (jsMin s2.p1.y s2.p2.y))) := by
  constructor
  · norm_num [checkSegmentCollision, checkIntervalOverlap, jsAbs, jsMin, jsMax]
  · intro s1 s2 th h
    unfold checkSegmentCollision at h
    split_ifs at h with h1 h2 h3 h4 h5
    · push_neg at h1
      refine ⟨h1, Or.inl ⟨h2, ?_⟩⟩
      simp only [checkIntervalOverlap, decide_eq_true_eq] at h
      linarith
    · push_neg at h1
      refine ⟨h1, Or.inr ⟨h4, ?_⟩⟩
      simp only [checkIntervalOverlap, decide_eq_true_eq] at h
      linarith

/-- Witness for C7: the general part applied to two concretely colliding
horizontal segments (x-ranges `[0,10]` and `[5,20]`, overlap 5 > 2). -/
theorem checkSegmentCollision_requires_overlap_witness :
    ((⟨"c1", ⟨0, 0⟩, ⟨10, 0⟩, .horizontal⟩ : Segment).orientation
        = (⟨"c2", ⟨5, 0⟩, ⟨20, 0⟩, .horizontal⟩ : Segment).orientation) ∧
    (((⟨"c1", ⟨0, 0⟩, ⟨10, 0⟩, .horizontal⟩ : Segment).orientation = .horizontal ∧
        2 < jsMin (jsMax (0:ℚ) 10) (jsMax 5 20) - jsMax (jsMin (0:ℚ) 10) (jsMin 5 20)) ∨
      ((⟨"c1", ⟨0, 0⟩, ⟨10, 0⟩, .horizontal⟩ : Segment).orientation = .vertical ∧
        2 < jsMin (jsMax (0:ℚ) 0) (jsMax 0 0) - jsMax (jsMin (0:ℚ) 0) (jsMin 0 0))) :=
  checkSegmentCollision_requires_overlap.2
    ⟨"c1", ⟨0, 0⟩, ⟨10, 0⟩, .horizontal⟩ ⟨"c2", ⟨5, 0⟩, ⟨20, 0⟩, .horizontal⟩ 5
    (by norm_num [checkSegmentCollision, checkIntervalOverlap, jsAbs, jsMin, jsMax])

/-! ### Helper lemmas about the drift primitives -/

/-- The pointwise waypoint copy `waypoints.map(w => ({x: w.x, y: w.y}))`
is the identity on the list of coordinate values. -/
theorem copyWaypoints_eq (l : List Point) : l.map (fun w => Point.mk w.x w.y) = l := by
  induction l with
  | nil => rfl
  | cons p ps ih => rw [List.map_cons, ih]

theorem driftLoop_getElem (len : Nat) (off : ℚ) :
    ∀ (ps : List Point) (i j : Nat),
      (driftLoop len off i ps)[j]? =
        (ps[j]?).map
          (fun p => if 2 ≤ i + j ∧ i + j + 1 < len then { p with y := p.y + off } else p) := by
  intro ps
  induction ps with
  | nil => intro i j; simp [driftLoop]
  | cons p ps ih =>
    intro i j
    cases j with
    | zero => simp [driftLoop]
    | succ j =>
      have harith : i + 1 + j = i + (j + 1) := by omega
      simp only [driftLoop, List.getElem?_cons_succ, ih (i + 1) j, harith]

/-- Waypoints before index 2 and the final waypoint are untouched by
`applyDriftToWaypoints`. -/
theorem applyDrift_getElem_fixed (wps : List Point) (off : ℚ) (j : Nat)
    (h : j < 2 ∨ j + 1 = wps.length) :
    (applyDriftToWaypoints wps off)[j]? = wps[j]? := by
  unfold applyDriftToWaypoints
  rw [driftLoop_getElem]
  have hcond : ¬ (2 ≤ 0 + j ∧ 0 + j + 1 < wps.length) := by omega
  cases hj : wps[j]? with
  | none => rfl
  | some p => simp only [Option.map_some']; rw [if_neg hcond]

/-- Waypoints from index 2 through the second-to-last are shifted by
`off` in `y` by `applyDriftToWaypoints`. -/
theorem applyDrift_getElem_shifted (wps : List Point) (off : ℚ) (j : Nat)
    (h2 : 2 ≤ j) (hlt : j + 1 < wps.length) :
    (applyDriftToWaypoints wps off)[j]? =
      (wps[j]?).map (fun p => { p with y := p.y + off }) := by
  unfold applyDriftToWaypoints
  rw [driftLoop_getElem]
  have hcond : 2 ≤ 0 + j ∧ 0 + j + 1 < wps.length := by omega
  cases hj : wps[j]? with
  | none => rfl
  | some p => simp only [Option.map_some']; rw [if_pos hcond]

/-- The nudge loop does nothing when every other connection is parallel
to the target (`layout.collision.ts:185-188`). -/
theorem foldl_nudgeStep_all_parallel (tgt : ConnectionLike) (constants : LayoutConstants)
    (others : List ConnectionLike) (acc : List Point × Bool)
    (h : ∀ o ∈ others, isParallelPair tgt o = true) :
    others.foldl (nudgeStep tgt constants) acc = acc := by
  induction others generalizing acc with
  | nil => rfl
  | cons o os ih =>
    rw [List.foldl_cons]
    have ho := h o (List.mem_cons_self o os)
    rw [nudgeStep, if_pos ho]
    exact ih acc (fun o' ho' => h o' (List.mem_cons_of_mem o ho'))

/-! ### C5: parallel fan-out -/

section FanOut

variable {a b c s t : String} {w1 w2 w3 : List Point}

/-- Fan-out evaluation for the id-smallest of three parallel connectors:
sorted index 0, offset `(0 - 1) * 18 = -18`. -/
theorem fanout_first (hab : idLe a b = true) (hbc : idLe b c = true)
    (hw1 : 2 ≤ w1.length) :
    computeResolvedWaypoints ⟨a, w1, s, t⟩ [⟨b, w2, s, t⟩, ⟨c, w3, s, t⟩]
      DEFAULT_LAYOUT_CONSTANTS = (applyDriftToWaypoints w1 (-18), true) := by
  have hpar1 : isParallelPair ⟨a, w1, s, t⟩ ⟨b, w2, s, t⟩ = true := by simp [isParallelPair]
  have hpar2 : isParallelPair ⟨a, w1, s, t⟩ ⟨c, w3, s, t⟩ = true := by simp [isParallelPair]
  simp only [computeResolvedWaypoints, copyWaypoints_eq]
  rw [if_neg (by omega : ¬ ((w1 : List Point).length < 2))]
  rw [foldl_nudgeStep_all_parallel _ _ _ _ (by
    intro o ho
    simp only [List.mem_cons, List.not_mem_nil, or_false] at ho
    rcases ho with h | h <;> subst h <;> assumption)]
  simp only [List.filter_cons, hpar1, hpar2, List.filter_nil, if_true]
  simp only [List.length_cons, List.length_nil]
  rw [if_pos (by omega : (0 + 1 + 1 : Nat) > 0)]
  simp only [sortById, orderedInsertById, hab, hbc, if_true]
  simp only [List.findIdx_cons, decide_True, cond_true]
  norm_num [DEFAULT_LAYOUT_CONSTANTS, jsAbs]

/-- Fan-out evaluation for the id-middle of three parallel connectors:
sorted index 1, offset `(1 - 1) * 18 = 0`, nothing updated. -/
theorem fanout_middle (hab : idLe a b = true) (hbc : idLe b c = true)
    (hba : idLe b a = false) (hac : idLe a c = true)
    (nab : a ≠ b) (hw2 : 2 ≤ w2.length) :
    computeResolvedWaypoints ⟨b, w2, s, t⟩ [⟨a, w1, s, t⟩, ⟨c, w3, s, t⟩]
      DEFAULT_LAYOUT_CONSTANTS = (w2, false) := by
  have hpar1 : isParallelPair ⟨b, w2, s, t⟩ ⟨a, w1, s, t⟩ = true := by simp [isParallelPair]
  have hpar2 : isParallelPair ⟨b, w2, s, t⟩ ⟨c, w3, s, t⟩ = true := by simp [isParallelPair]
  simp only [computeResolvedWaypoints, copyWaypoints_eq]
  rw [if_neg (by omega : ¬ ((w2 : List Point).length < 2))]
  rw [foldl_nudgeStep_all_parallel _ _ _ _ (by
    intro o ho
    simp only [List.mem_cons, List.not_mem_nil, or_false] at ho
    rcases ho with h | h <;> subst h <;> assumption)]
  simp only [List.filter_cons, hpar1, hpar2, List.filter_nil, if_true]
  simp only [List.length_cons, List.length_nil]
  rw [if_pos (by omega : (0 + 1 + 1 : Nat) > 0)]
  simp only [sortById, orderedInsertById, hac, hba, hbc, if_true,
    Bool.false_eq_true, if_false]
  simp only [List.findIdx_cons, nab, decide_True, decide_False, cond_true, cond_false]
  norm_num [DEFAULT_LAYOUT_CONSTANTS, jsAbs]

/-- Fan-out evaluation for the id-largest of three parallel connectors:
sorted index 2, offset `(2 - 1) * 18 = 18`. -/
theorem fanout_last (hab : idLe a b = true)
    (hca : idLe c a = false) (hcb : idLe c b = false)
    (nac : a ≠ c) (nbc : b ≠ c) (hw3 : 2 ≤ w3.length) :
    computeResolvedWaypoints ⟨c, w3, s, t⟩ [⟨a, w1, s, t⟩, ⟨b, w2, s, t⟩]
      DEFAULT_LAYOUT_CONSTANTS = (applyDriftToWaypoints w3 18, true) := by
  have hpar1 : isParallelPair ⟨c, w3, s, t⟩ ⟨a, w1, s, t⟩ = true := by simp [isParallelPair]
  have hpar2 : isParallelPair ⟨c, w3, s, t⟩ ⟨b, w2, s, t⟩ = true := by simp [isParallelPair]
  simp only [computeResolvedWaypoints, copyWaypoints_eq]
  rw [if_neg (by omega : ¬ ((w3 : List Point).length < 2))]
  rw [foldl_nudgeStep_all_parallel _ _ _ _ (by
    intro o ho
    simp only [List.mem_cons, List.not_mem_nil, or_false] at ho
    rcases ho with h | h <;> subst h <;> assumption)]
  simp only [List.filter_cons, hpar1, hpar2, List.filter_nil, if_true]
  simp only [List.length_cons, List.length_nil]
  rw [if_pos (by omega : (0 + 1 + 1 : Nat) > 0)]
  simp only [sortById, orderedInsertById, hab, hca, hcb, if_true,
    Bool.false_eq_true, if_false]
  simp only [List.findIdx_cons, nac, nbc, decide_True, decide_False, cond_true, cond_false]
  norm_num [DEFAULT_LAYOUT_CONSTANTS, jsAbs]

end FanOut

/-- C5: three connectors with the same (source, target) pair and ids in
ascending order `a < b < c` (`idLe` is the lexicographic order used to
model `localeCompare`) get fan-out offsets −18, 0 and 18 under the
default `parallelOffset = 18`; an applied offset shifts only the `y`
coordinates of waypoints from index 2 through the second-to-last, leaving
the first two waypoints and the last waypoint unchanged. -/
theorem computeResolvedWaypoints_parallel_fanout
    (a b c s t : String) (w1 w2 w3 : List Point)
    (hab : idLe a b = true) (hba : idLe b a = false)
    (hbc : idLe b c = true) (hcb : idLe c b = false)
    (hac : idLe a c = true) (hca : idLe c a = false)
    (nab : a ≠ b) (nbc : b ≠ c) (nac : a ≠ c)
    (hw1 : 2 ≤ w1.length) (hw2 : 2 ≤ w2.length) (hw3 : 2 ≤ w3.length) :
    ((computeResolvedWaypoints ⟨a, w1, s, t⟩ [⟨b, w2, s, t⟩, ⟨c, w3, s, t⟩]
        DEFAULT_LAYOUT_CONSTANTS).2 = true ∧
      (computeResolvedWaypoints ⟨b, w2, s, t⟩ [⟨a, w1, s, t⟩, ⟨c, w3, s, t⟩]
        DEFAULT_LAYOUT_CONSTANTS).2 = false ∧
      (computeResolvedWaypoints ⟨c, w3, s, t⟩ [⟨a, w1, s, t⟩, ⟨b, w2, s, t⟩]
        DEFAULT_LAYOUT_CONSTANTS).2 = true) ∧
    (computeResolvedWaypoints ⟨b, w2, s, t⟩ [⟨a, w1, s, t⟩, ⟨c, w3, s, t⟩]
        DEFAULT_LAYOUT_CONSTANTS).1 = w2 ∧
    (∀ j : Nat, j < 2 ∨ j + 1 = w1.length →
      (computeResolvedWaypoints ⟨a, w1, s, t⟩ [⟨b, w2, s, t⟩, ⟨c, w3, s, t⟩]
        DEFAULT_LAYOUT_CONSTANTS).1[j]? = w1[j]?) ∧
    (∀ j : Nat, 2 ≤ j → j + 1 < w1.length →
      (computeResolvedWaypoints ⟨a, w1, s, t⟩ [⟨b, w2, s, t⟩, ⟨c, w3, s, t⟩]
        DEFAULT_LAYOUT_CONSTANTS).1[j]? =
          (w1[j]?).map (fun p => { p with y := p.y + (-18) })) ∧
    (∀ j : Nat, j < 2 ∨ j + 1 = w3.length →
      (computeResolvedWaypoints ⟨c, w3, s, t⟩ [⟨a, w1, s, t⟩, ⟨b, w2, s, t⟩]
        DEFAULT_LAYOUT_CONSTANTS).1[j]? = w3[j]?) ∧
    (∀ j : Nat, 2 ≤ j → j + 1 < w3.length →
      (computeResolvedWaypoints ⟨c, w3, s, t⟩ [⟨a, w1, s, t⟩, ⟨b, w2, s, t⟩]
        DEFAULT_LAYOUT_CONSTANTS).1[j]? =
          (w3[j]?).map (fun p => { p with y := p.y + 18 })) := by
  have e1 := @fanout_first a b c s t w1 w2 w3 hab hbc hw1
  have e2 := @fanout_middle a b c s t w1 w2 w3 hab hbc hba hac nab hw2
  have e3 := @fanout_last a b c s t w1 w2 w3 hab hca hcb nac nbc hw3
  rw [e1, e2, e3]
  refine ⟨⟨rfl, rfl, rfl⟩, rfl, ?_, ?_, ?_, ?_⟩
  · intro j hj; exact applyDrift_getElem_fixed w1 (-18) j hj
  · intro j h2 hlt; exact applyDrift_getElem_shifted w1 (-18) j h2 hlt
  · intro j hj; exact applyDrift_getElem_fixed w3 18 j hj
  · intro j h2 hlt; exact applyDrift_getElem_shifted w3 18 j h2 hlt

/-- A concrete 5-point route used to instantiate the fan-out theorem. -/
def fanoutWitnessRoute : List Point :=
  [⟨0, 0⟩, ⟨10, 0⟩, ⟨10, 5⟩, ⟨20, 5⟩, ⟨30, 5⟩]

/-- Witness for C5: the fan-out theorem applied to three concrete parallel
connectors with ids "a" < "b" < "c". -/
theorem computeResolvedWaypoints_parallel_fanout_witness :
    ((computeResolvedWaypoints ⟨"a", fanoutWitnessRoute, "s", "t"⟩
        [⟨"b", fanoutWitnessRoute, "s", "t"⟩, ⟨"c", fanoutWitnessRoute, "s", "t"⟩]
        DEFAULT_LAYOUT_CONSTANTS).2 = true ∧
      (computeResolvedWaypoints ⟨"b", fanoutWitnessRoute, "s", "t"⟩
        [⟨"a", fanoutWitnessRoute, "s", "t"⟩, ⟨"c", fanoutWitnessRoute, "s", "t"⟩]
        DEFAULT_LAYOUT_CONSTANTS).2 = false ∧
      (computeResolvedWaypoints ⟨"c", fanoutWitnessRoute, "s", "t"⟩
        [⟨"a", fanoutWitnessRoute, "s", "t"⟩, ⟨"b", fanoutWitnessRoute, "s", "t"⟩]
        DEFAULT_LAYOUT_CONSTANTS).2 = true) ∧
    (computeResolvedWaypoints ⟨"b", fanoutWitnessRoute, "s", "t"⟩
        [⟨"a", fanoutWitnessRoute, "s", "t"⟩, ⟨"c", fanoutWitnessRoute, "s", "t"⟩]
        DEFAULT_LAYOUT_CONSTANTS).1 = fanoutWitnessRoute :=
  ⟨(computeResolvedWaypoints_parallel_fanout "a" "b" "c" "s" "t"
      fanoutWitnessRoute fanoutWitnessRoute fanoutWitnessRoute
      (by decide) (by decide) (by decide) (by decide) (by decide) (by decide)
      (by decide) (by decide) (by decide)
      (by decide) (by decide) (by decide)).1,
   (computeResolvedWaypoints_parallel_fanout "a" "b" "c" "s" "t"
      fanoutWitnessRoute fanoutWitnessRoute fanoutWitnessRoute
      (by decide) (by decide) (by decide) (by decide) (by decide) (by decide)
      (by decide) (by decide) (by decide)
      (by decide) (by decide) (by decide)).2.1⟩

/-! ### Symmetry of the collision predicate and consequences of an empty
conflict report -/

theorem jsAbs_sub_comm (a b : ℚ) : jsAbs (a - b) = jsAbs (b - a) := by
  unfold jsAbs
  split_ifs <;> linarith

theorem jsMin_comm (a b : ℚ) : jsMin a b = jsMin b a := by
  unfold jsMin
  split_ifs <;> linarith

theorem jsMax_comm (a b : ℚ) : jsMax a b = jsMax b a := by
  unfold jsMax
  split_ifs <;> linarith

theorem checkIntervalOverlap_symm (m1 x1 m2 x2 : ℚ) :
    checkIntervalOverlap m1 x1 m2 x2 = checkIntervalOverlap m2 x2 m1 x1 := by
  unfold checkIntervalOverlap
  rw [jsMax_comm, jsMin_comm]

/-- `checkSegmentCollision` is symmetric in its two segments. -/
theorem checkSegmentCollision_symm (s1 s2 : Segment) (th : ℚ) :
    checkSegmentCollision s1 s2 th = checkSegmentCollision s2 s1 th := by
  unfold checkSegmentCollision
  rcases h1 : s1.orientation <;> rcases h2 : s2.orientation <;>
    simp [h1, h2, jsAbs_sub_comm s1.p1.y, jsAbs_sub_comm s1.p1.x,
      checkIntervalOverlap_symm]

/-- The collision predicate ignores the `connectionId` fields. -/
theorem checkSegmentCollision_id_irrel (i1 i2 j1 j2 : String)
    (p1 p2 q1 q2 : Point) (o1 o2 : Orientation) (th : ℚ) :
    checkSegmentCollision ⟨i1, p1, p2, o1⟩ ⟨i2, q1, q2, o2⟩ th
      = checkSegmentCollision ⟨j1, p1, p2, o1⟩ ⟨j2, q1, q2, o2⟩ th := rfl

/-- If the detector reports no conflicts, then no two segments of
different connections collide. -/
theorem no_collision_of_detect_nil (th : ℚ) :
    ∀ segs : List Segment, detectCollisions segs th = [] →
      ∀ s ∈ segs, ∀ u ∈ segs, s.connectionId ≠ u.connectionId →
        checkSegmentCollision s u th = false
  | [], _, s, hs, _, _, _ => absurd hs (List.not_mem_nil s)
  | s0 :: rest, h, s, hs, u, hu, hne => by
      rw [detectCollisions] at h
      rcases List.append_eq_nil.mp h with ⟨hhead, htail⟩
      have hpair : ∀ v ∈ rest, v.connectionId ≠ s0.connectionId →
          checkSegmentCollision s0 v th = false := by
        intro v hv hvne
        have := (List.filterMap_eq_nil.mp hhead) v hv
        rw [if_neg (fun hh => hvne hh.symm)] at this
        by_cases hc : checkSegmentCollision s0 v th = true
        · rw [if_pos hc] at this; exact absurd this (Option.some_ne_none _)
        · exact Bool.eq_false_iff.mpr hc
      rcases List.mem_cons.mp hs with hseq | hsrest
      · rcases List.mem_cons.mp hu with huq | hurest
        · subst hseq; subst huq; exact absurd rfl hne
        · subst hseq; exact hpair u hurest (fun hh => hne hh.symm)
      · rcases List.mem_cons.mp hu with huq | hurest
        · subst huq
          rw [checkSegmentCollision_symm]
          exact hpair s hsrest hne
        · exact no_collision_of_detect_nil th rest htail s hsrest u hurest hne

/-- Membership description of `extractSegments`: changing the connection
id just relabels each segment. -/
theorem extractSegments_relabel (cid cid' : String) :
    ∀ wps : List Point,
      extractSegments cid wps
        = (extractSegments cid' wps).map (fun s => { s with connectionId := cid })
  | [] => rfl
  | [_] => rfl
  | p :: q :: rest => by
      rw [extractSegments, extractSegments, List.map_cons]
      exact congrArg _ (extractSegments_relabel cid cid' (q :: rest))

/-- If every segment of the scanned connection fails the collision check
against the fixed segment, the inner scan finds nothing. -/
theorem overlapScanOther_none (check : Segment → Segment → Bool) (p1 p2 : Point)
    (o : Orientation) :
    ∀ other : List Point,
      (∀ u ∈ extractSegments "" other, check ⟨"", p1, p2, o⟩ u = false) →
      overlapScanOther check p1 p2 o other = none
  | [], _ => rfl
  | [_], _ => rfl
  | q1 :: q2 :: rest, h => by
      have hu : check ⟨"", p1, p2, o⟩ ⟨"", q1, q2, getOrientation q1 q2⟩ = false := by
        refine h _ ?_
        rw [extractSegments]
        exact List.mem_cons_self _ _
      have hrest : ∀ u ∈ extractSegments "" (q2 :: rest), check ⟨"", p1, p2, o⟩ u = false := by
        intro u huu
        refine h u ?_
        rw [extractSegments]
        exact List.mem_cons_of_mem _ huu
      rw [overlapScanOther]
      by_cases ho : o ≠ getOrientation q1 q2
      · rw [if_pos ho]
        exact overlapScanOther_none check p1 p2 o (q2 :: rest) hrest
      · rw [if_neg ho, if_pos (by simp [hu])]
        exact overlapScanOther_none check p1 p2 o (q2 :: rest) hrest

/-- If no segment of `wps` collides with any segment of the other
connection, the whole overlap scan returns `none`. -/
theorem overlapScan_none (check : Segment → Segment → Bool) (otherWps : List Point) :
    ∀ (wps : List Point) (i : Nat),
      (∀ s ∈ extractSegments "" wps, ∀ u ∈ extractSegments "" otherWps,
        check s u = false) →
      overlapScan check otherWps i wps = none
  | [], _, _ => rfl
  | [_], _, _ => rfl
  | p1 :: p2 :: rest, i, h => by
      have hhead : ∀ u ∈ extractSegments "" otherWps,
          check ⟨"", p1, p2, getOrientation p1 p2⟩ u = false := by
        intro u hu
        refine h _ ?_ u hu
        rw [extractSegments]
        exact List.mem_cons_self _ _
      have hrest : ∀ s ∈ extractSegments "" (p2 :: rest),
          ∀ u ∈ extractSegments "" otherWps, check s u = false := by
        intro s hsmem u hu
        refine h s ?_ u hu
        rw [extractSegments]
        exact List.mem_cons_of_mem _ hsmem
      rw [overlapScan,
        overlapScanOther_none check p1 p2 (getOrientation p1 p2) otherWps hhead]
      exact overlapScan_none check otherWps (p2 :: rest) (i + 1) hrest

/-- The nudge loop leaves its accumulator untouched when no other
connection produces an overlap. -/
theorem foldl_nudgeStep_no_overlap (tgt : ConnectionLike) (constants : LayoutConstants)
    (acc : List Point × Bool) :
    ∀ others : List ConnectionLike,
      (∀ o ∈ others,
        checkConnectionOverlapDetails acc.1 o
          (fun s1 s2 => checkSegmentCollision s1 s2 constants.collisionThreshold) = none) →
      others.foldl (nudgeStep tgt constants) acc = acc
  | [], _ => rfl
  | o :: os, h => by
      rw [List.foldl_cons]
      have hstep : nudgeStep tgt constants acc o = acc := by
        unfold nudgeStep
        rw [h o (List.mem_cons_self o os)]
        split <;> rfl
      rw [hstep]
      exact foldl_nudgeStep_no_overlap tgt constants acc os
        (fun o' ho' => h o' (List.mem_cons_of_mem o ho'))

/-! ### The resolveEdgeCollisions orchestration
(`bpmn-layout.service.ts:124-156`) -/

/-- The inner `for (const conn of connections)` loop of
`resolveEdgeCollisions`, iterating positionally over the evolving
connection store (`updateWaypoints` replaces the connection's waypoints,
visible to later iterations of the same pass).  Accumulates the
`anyUpdated` flag and the list of issued `updateWaypoints` mutations. -/
def passAux (constants : LayoutConstants) (conns : List ConnectionLike) (i : Nat)
    (anyUpdated : Bool) (ups : List (String × List Point)) :
    List ConnectionLike × Bool × List (String × List Point) :=
  if h : i < conns.length then
    let conn := conns.get ⟨i, h⟩
    let others := conns.filter (fun c => c.id ≠ conn.id)
    let r := computeResolvedWaypoints conn others constants
    if r.2 then
      passAux constants (conns.set i { conn with waypoints := r.1 }) (i + 1) true
        (ups ++ [(conn.id, r.1)])
    else
      passAux constants conns (i + 1) anyUpdated ups
  else (conns, anyUpdated, ups)
termination_by conns.length - i
decreasing_by
  · simp only [List.length_set]; omega
  · omega

/-- The outer `for (let pass = 0; pass < maxPasses; pass++)` loop with its
early exit when a pass produced no update. -/
def resolveLoop (constants : LayoutConstants) :
    Nat → List ConnectionLike → List (String × List Point) →
    List ConnectionLike × List (String × List Point)
  | 0, conns, ups => (conns, ups)
  | n + 1, conns, ups =>
      let r := passAux constants conns 0 false ups
      if r.2.1 then resolveLoop constants n r.1 r.2.2 else (r.1, r.2.2)

/-- `resolveEdgeCollisions` (`bpmn-layout.service.ts:124-156`), modelled as
the list of `updateWaypoints` mutations it issues. -/
def resolveEdgeCollisionsUpdates (connections : List ConnectionLike)
    (maxPasses : Nat := 5)
    (constants : LayoutConstants := DEFAULT_LAYOUT_CONSTANTS) :
    List (String × List Point) :=
  if connections.length = 0 then []
  else (resolveLoop constants maxPasses connections []).2

/-- `BpmnLayoutService.detectCollisions`
(`bpmn-layout.service.ts:158-167`): extract all segments of all sequence
flows and run the pairwise detector at the default threshold. -/
def detectCollisionsService (connections : List ConnectionLike) :
    List CollisionConflict :=
  detectCollisions
    (List.join (connections.map (fun conn => extractSegments conn.id conn.waypoints)))
    DEFAULT_LAYOUT_CONSTANTS.collisionThreshold

/-! ### C3: idempotence on conflict-free input -/

/-- Every segment of a connection, relabelled with its connection id, is
among the detector's segment pool. -/
theorem mem_segment_pool (conns : List ConnectionLike) (d : ConnectionLike)
    (hd : d ∈ conns) :
    ∀ s ∈ extractSegments "" d.waypoints,
      { s with connectionId := d.id } ∈
        List.join (conns.map (fun conn => extractSegments conn.id conn.waypoints)) := by
  intro s hsmem
  refine List.mem_join.mpr ⟨extractSegments d.id d.waypoints, List.mem_map_of_mem _ hd, ?_⟩
  rw [extractSegments_relabel d.id ""]
  exact List.mem_map_of_mem _ hsmem

/-- On a conflict-free, parallel-free connection set,
`computeResolvedWaypoints` returns the unchanged copy and no update. -/
theorem computeResolved_free_eval (conns : List ConnectionLike)
    (hfree : detectCollisionsService conns = [])
    (hnopar : ∀ x ∈ conns, ∀ y ∈ conns, x.id ≠ y.id → isParallelPair x y = false)
    (c : ConnectionLike) (hc : c ∈ conns) :
    computeResolvedWaypoints c (conns.filter (fun o => o.id ≠ c.id))
      DEFAULT_LAYOUT_CONSTANTS = (c.waypoints, false) := by
  rw [detectCollisionsService] at hfree
  have hnocol : ∀ o ∈ conns, o.id ≠ c.id →
      ∀ s ∈ extractSegments "" c.waypoints, ∀ u ∈ extractSegments "" o.waypoints,
        checkSegmentCollision s u DEFAULT_LAYOUT_CONSTANTS.collisionThreshold = false := by
    intro o ho hone s hsmem u humem
    have h1 := mem_segment_pool conns c hc s hsmem
    have h2 := mem_segment_pool conns o ho u humem
    have hids : ({ s with connectionId := c.id } : Segment).connectionId ≠
        ({ u with connectionId := o.id } : Segment).connectionId := by
      intro hh
      exact hone (by simpa using hh.symm)
    have hcol := no_collision_of_detect_nil _ _ hfree _ h1 _ h2 hids
    exact hcol
  simp only [computeResolvedWaypoints, copyWaypoints_eq]
  by_cases hlen : c.waypoints.length < 2
  · rw [if_pos hlen]
  · rw [if_neg hlen]
    have hpg : (conns.filter (fun o => o.id ≠ c.id)).filter
        (fun other => isParallelPair c other) = [] := by
      rw [List.filter_eq_nil]
      intro o ho
      have ho1 := List.mem_of_mem_filter ho
      have ho2 : o.id ≠ c.id := by
        have := List.of_mem_filter ho
        simpa using this
      simp [hnopar c hc o ho1 (fun hh => ho2 hh.symm)]
    rw [hpg]
    rw [if_neg (by simp)]
    exact foldl_nudgeStep_no_overlap c DEFAULT_LAYOUT_CONSTANTS (c.waypoints, false) _
      (by
        intro o ho
        have ho1 := List.mem_of_mem_filter ho
        have ho2 : o.id ≠ c.id := by
          have := List.of_mem_filter ho
          simpa using this
        exact overlapScan_none _ o.waypoints c.waypoints 0
          (fun s hs u hu => hnocol o ho1 ho2 s hs u hu))

/-- A pass over connectors none of which reports an update leaves the
store, the flag and the mutation log untouched. -/
theorem passAux_no_update (constants : LayoutConstants) (conns : List ConnectionLike)
    (h : ∀ c ∈ conns,
      (computeResolvedWaypoints c (conns.filter (fun o => o.id ≠ c.id)) constants).2
        = false) :
    ∀ (k i : Nat), conns.length ≤ i + k →
      ∀ (any : Bool) (ups : List (String × List Point)),
        passAux constants conns i any ups = (conns, any, ups) := by
  intro k
  induction k with
  | zero =>
    intro i hik any ups
    rw [passAux, dif_neg (by omega)]
  | succ k ih =>
    intro i hik any ups
    by_cases hlt : i < conns.length
    · rw [passAux, dif_pos hlt]
      have hc := List.get_mem conns i hlt
      simp only [h _ hc, Bool.false_eq_true, if_false]
      exact ih (i + 1) (by omega) any ups
    · rw [passAux, dif_neg hlt]

/-- C3 (amended): on a set of connectors that is conflict-free (the
read-only detector reports no conflicts) and contains no two connectors
sharing the same unordered (source, target) pair, every connector reports
`updated = false` and `resolveEdgeCollisions` issues no `updateWaypoints`
mutation.  (Without the no-parallel-pair condition the claim fails: the
fan-out re-applies its offset on every run, see the counterexample.) -/
theorem resolveEdgeCollisions_noop_on_conflict_free
    (conns : List ConnectionLike)
    (hfree : detectCollisionsService conns = [])
    (hnopar : ∀ x ∈ conns, ∀ y ∈ conns, x.id ≠ y.id → isParallelPair x y = false) :
    (∀ c ∈ conns,
      (computeResolvedWaypoints c (conns.filter (fun o => o.id ≠ c.id))
        DEFAULT_LAYOUT_CONSTANTS).2 = false) ∧
    resolveEdgeCollisionsUpdates conns 5 DEFAULT_LAYOUT_CONSTANTS = [] := by
  have hupd : ∀ c ∈ conns,
      (computeResolvedWaypoints c (conns.filter (fun o => o.id ≠ c.id))
        DEFAULT_LAYOUT_CONSTANTS).2 = false := by
    intro c hc
    rw [computeResolved_free_eval conns hfree hnopar c hc]
  refine ⟨hupd, ?_⟩
  rw [resolveEdgeCollisionsUpdates]
  by_cases hnil : conns.length = 0
  · rw [if_pos hnil]
  · rw [if_neg hnil]
    rw [resolveLoop]
    rw [passAux_no_update DEFAULT_LAYOUT_CONSTANTS conns hupd conns.length 0
      (by omega) false []]
    rfl

/-- Witness for C3: two non-parallel straight connectors 50 apart are
conflict-free, and the resolver issues no update on them. -/
theorem resolveEdgeCollisions_noop_witness :
    (∀ c ∈ [(⟨"a", [⟨0, 0⟩, ⟨100, 0⟩], "S1", "T1"⟩ : ConnectionLike),
            (⟨"b", [⟨0, 50⟩, ⟨100, 50⟩], "S2", "T2"⟩ : ConnectionLike)],
      (computeResolvedWaypoints c
        (([(⟨"a", [⟨0, 0⟩, ⟨100, 0⟩], "S1", "T1"⟩ : ConnectionLike),
           (⟨"b", [⟨0, 50⟩, ⟨100, 50⟩], "S2", "T2"⟩ : ConnectionLike)]).filter
          (fun o => o.id ≠ c.id))
        DEFAULT_LAYOUT_CONSTANTS).2 = false) ∧
    resolveEdgeCollisionsUpdates
      [(⟨"a", [⟨0, 0⟩, ⟨100, 0⟩], "S1", "T1"⟩ : ConnectionLike),
       (⟨"b", [⟨0, 50⟩, ⟨100, 50⟩], "S2", "T2"⟩ : ConnectionLike)] 5
      DEFAULT_LAYOUT_CONSTANTS = [] :=
  resolveEdgeCollisions_noop_on_conflict_free _
    (by
      norm_num [detectCollisionsService, detectCollisions, extractSegments,
        getOrientation, checkSegmentCollision, checkIntervalOverlap,
        DEFAULT_LAYOUT_CONSTANTS, jsAbs, jsMin, jsMax])
    (by
      intro x hx y hy hne
      fin_cases hx <;> fin_cases hy <;>
        first
          | (exact absurd rfl hne)
          | (simp [isParallelPair]))

/-- Counterexample for C3 as stated: two parallel connectors (same
source "S" and target "T") whose waypoints are 50 apart are conflict-free
(the detector reports nothing), yet `computeResolvedWaypoints` still
reports `updated = true` for the first of them, because the parallel
fan-out recomputes and re-applies its offset on every run. -/
theorem resolveEdgeCollisions_not_idempotent_cex :
    detectCollisionsService
      [(⟨"a", [⟨0, 0⟩, ⟨100, 0⟩], "S", "T"⟩ : ConnectionLike),
       (⟨"b", [⟨0, 50⟩, ⟨100, 50⟩], "S", "T"⟩ : ConnectionLike)] = [] ∧
    (computeResolvedWaypoints (⟨"a", [⟨0, 0⟩, ⟨100, 0⟩], "S", "T"⟩ : ConnectionLike)
      [(⟨"b", [⟨0, 50⟩, ⟨100, 50⟩], "S", "T"⟩ : ConnectionLike)]
      DEFAULT_LAYOUT_CONSTANTS).2 = true := by
  constructor
  · norm_num [detectCollisionsService, detectCollisions, extractSegments,
      getOrientation, checkSegmentCollision, checkIntervalOverlap,
      DEFAULT_LAYOUT_CONSTANTS, jsAbs, jsMin, jsMax]
  · have hab : idLe "a" "b" = true := by decide
    have hpar : isParallelPair ⟨"a", [⟨0, 0⟩, ⟨100, 0⟩], "S", "T"⟩
        ⟨"b", [⟨0, 50⟩, ⟨100, 50⟩], "S", "T"⟩ = true := by
      simp [isParallelPair]
    simp only [computeResolvedWaypoints, copyWaypoints_eq]
    rw [if_neg (by norm_num)]
    rw [foldl_nudgeStep_all_parallel _ _ _ _ (by
      intro o ho
      simp only [List.mem_cons, List.not_mem_nil, or_false] at ho
      subst ho
      exact hpar)]
    simp only [List.filter_cons, hpar, List.filter_nil, if_true]
    simp only [List.length_cons, List.length_nil]
    rw [if_pos (by omega : (0 + 1 : Nat) > 0)]
    simp only [sortById, orderedInsertById, hab, if_true]
    simp only [List.findIdx_cons, decide_True, cond_true]
    norm_num [DEFAULT_LAYOUT_CONSTANTS, jsAbs]

/-! ### The graph builder and rank assigner (`layout.graph.ts`) -/

/-- A sequence-flow connection as seen through `el.outgoing`: the source
object references (`conn.target`, `conn.source`) are modelled by element
ids. -/
structure BpmnConnection where
  id : String
  sourceId : String
  targetId : String
  waypoints : List Point
deriving DecidableEq, Repr

/-- `BpmnElementLike` (`bpmn-layout.service.ts:36-47`); `businessObject`
is only ever tested against `null`, so it is a flag. -/
structure BpmnElement where
  id : String
  type : String
  parentId : Option String
  x : Option ℚ
  y : Option ℚ
  width : Option ℚ
  height : Option ℚ
  outgoing : List BpmnConnection
  hidden : Bool
  hasBusinessObject : Bool
deriving DecidableEq, Repr

/-- `LayoutNode` (`layout.types.ts`). -/
structure LayoutNode where
  id : String
  element : BpmnElement
  rank : ℤ
  laneId : String
  width : ℚ
  height : ℚ
deriving DecidableEq, Repr

/-- Whether the node map built from `elements` has a node for `tid`
(`nodeMap.has(targetId)`). -/
def hasNode (elements : List BpmnElement) (tid : String) : Bool :=
  elements.any (fun el => el.id = tid)

/-- First loop of `buildGraphFromElements` (`layout.graph.ts:12-23`):
one `LayoutNode` per element, rank 0, keyed by element id in insertion
order.  The source reads `el.parent.id` / `el.width` / `el.height`
unconditionally; absent optional fields are defaulted here where the
source would fail. -/
def buildNodeMap (elements : List BpmnElement) : List (String × LayoutNode) :=
  elements.map (fun el =>
    (el.id, { id := el.id, element := el, rank := 0,
              laneId := el.parentId.getD "", width := el.width.getD 0,
              height := el.height.getD 0 }))

/-- Second loop of `buildGraphFromElements` (`layout.graph.ts:25-33`):
each element's adjacency list collects the targets of its outgoing
connections whose target is present in the node map (dangling targets
are dropped). -/
def buildAdjacency (elements : List BpmnElement) : List (String × List String) :=
  elements.map (fun el =>
    (el.id,
      (el.outgoing.filter (fun conn => hasNode elements conn.targetId)).map
        (fun conn => conn.targetId)))

/-- `adjacency.get(id) ?? []`. -/
def adjOf (adjacency : List (String × List String)) (id : String) : List String :=
  match adjacency.lookup id with
  | some l => l
  | none => []

/-- The in-degree recomputed by `assignRanks` (`layout.collision.ts`
graph part, lines 250-256): one increment per occurrence of `id` among
all adjacency targets. -/
def inDegreeOf (adjacency : List (String × List String)) (id : String) : Nat :=
  (adjacency.map (fun p => p.2.count id)).sum

/-- Queue seeding of `assignRanks` (lines 258-264): all zero-in-degree
nodes in node-map insertion order; if none and the map is non-empty, the
first key of the map. -/
def seedQueue (nodeMap : List (String × LayoutNode))
    (adjacency : List (String × List String)) : List String :=
  match (nodeMap.filter (fun p => inDegreeOf adjacency p.1 = 0)).map Prod.fst,
      nodeMap with
  | [], p :: _ => [p.1]
  | seeds, _ => seeds

/-- The `for (const nextId of neighbors)` relaxation of `assignRanks`
(lines 270-276): successors whose rank is ≤ the current node's get rank
`curr + 1` and are re-enqueued.  `ranks curr` is re-read on every
iteration, as the source re-reads the mutated node object. -/
def processSuccs (curr : String) (ranks : String → ℤ) (enq : List String) :
    List String → (String → ℤ) × List String
  | [] => (ranks, enq)
  | v :: rest =>
      if ranks v ≤ ranks curr then
        processSuccs curr (fun x => if x = v then ranks curr + 1 else ranks x)
          (enq ++ [v]) rest
      else
        processSuccs curr ranks enq rest

/-- The `while (queue.length > 0)` loop of `assignRanks` (lines 266-278),
with explicit fuel: `none` means the fuel ran out with a non-empty queue
(the source loop would still be running). -/
def rankLoop (adjacency : List (String × List String)) :
    Nat → (String → ℤ) → List String → Option (String → ℤ)
  | _, ranks, [] => some ranks
  | 0, _, _ :: _ => none
  | fuel + 1, ranks, curr :: rest =>
      let r := processSuccs curr ranks [] (adjOf adjacency curr)
      rankLoop adjacency fuel r.1 (rest ++ r.2)

/-- `assignRanks` (`layout.graph.ts` lines 246-278): run the relaxation
loop from the ranks stored in the node map and write the final ranks
back into the nodes. -/
def assignRanks (nodeMap : List (String × LayoutNode))
    (adjacency : List (String × List String)) (fuel : Nat) :
    Option (List (String × LayoutNode)) :=
  match rankLoop adjacency fuel
      (fun id => match nodeMap.lookup id with | some n => n.rank | none => 0)
      (seedQueue nodeMap adjacency) with
  | some ranks =>
      some (nodeMap.map (fun p => (p.1, { p.2 with rank := ranks p.1 })))
  | none => none

/-! ### C2: the rank loop does not terminate on a cycle -/

/-- A minimal flow-node element with the given outgoing targets. -/
def mkFlowElement (id : String) (targets : List String) : BpmnElement :=
  { id := id, type := "bpmn:Task", parentId := some "Lane_1",
    x := some 0, y := some 0, width := some 100, height := some 80,
    outgoing := targets.map (fun u =>
      { id := id ++ "_to_" ++ u, sourceId := id, targetId := u, waypoints := [] }),
    hidden := false, hasBusinessObject := true }

/-- Two tasks connected in a 2-cycle `A → B → A`. -/
def cycleElements : List BpmnElement :=
  [mkFlowElement "A" ["B"], mkFlowElement "B" ["A"]]

/-- On the 2-cycle, popping "A" (resp. "B") always re-enqueues the other
node with a strictly larger rank, so the queue never empties. -/
theorem cycle_loop_none (adjacency : List (String × List String))
    (hA : adjOf adjacency "A" = ["B"]) (hB : adjOf adjacency "B" = ["A"]) :
    ∀ (fuel : Nat) (ranks : String → ℤ),
      (ranks "B" ≤ ranks "A" → rankLoop adjacency fuel ranks ["A"] = none) ∧
      (ranks "A" ≤ ranks "B" → rankLoop adjacency fuel ranks ["B"] = none) := by
  have hAB : ("B" : String) ≠ "A" := by decide
  have hBA : ("A" : String) ≠ "B" := by decide
  intro fuel
  induction fuel with
  | zero => intro ranks; exact ⟨fun _ => rfl, fun _ => rfl⟩
  | succ fuel ih =>
    intro ranks
    constructor
    · intro hle
      rw [rankLoop]
      simp only [hA, processSuccs, if_pos hle, List.nil_append]
      exact (ih _).2 (by
        simp only [if_neg hBA, eq_self_iff_true, if_true]
        omega)
    · intro hle
      rw [rankLoop]
      simp only [hB, processSuccs, if_pos hle, List.nil_append]
      exact (ih _).1 (by
        simp only [if_neg hAB, eq_self_iff_true, if_true]
        omega)

/-- C2 is false of the code: on the 2-cycle `A → B → A`, `assignRanks`
never terminates — no amount of fuel empties the queue, because ranks
grow without bound. -/
theorem assignRanks_diverges_on_cycle :
    ∀ fuel : Nat,
      assignRanks (buildNodeMap cycleElements) (buildAdjacency cycleElements) fuel
        = none := by
  intro fuel
  have hloop : rankLoop (buildAdjacency cycleElements) fuel
      (fun id => match (buildNodeMap cycleElements).lookup id with
        | some n => n.rank
        | none => 0)
      (seedQueue (buildNodeMap cycleElements) (buildAdjacency cycleElements))
      = none := by
    have hseed : seedQueue (buildNodeMap cycleElements)
        (buildAdjacency cycleElements) = ["A"] := by decide
    rw [hseed]
    exact (cycle_loop_none (buildAdjacency cycleElements) (by decide) (by decide)
      fuel _).1 (by decide)
  rw [assignRanks, hloop]

/-! ### C4: rank monotonicity along edges out of processed nodes -/

/-- Behaviour of one relaxation sweep: ranks only grow, every rank change
is enqueued, the enqueued prefix is preserved, and afterwards every
successor either outranks the current node or the current node itself got
re-enqueued (self-loop). -/
theorem processSuccs_spec (curr : String) :
    ∀ (succs : List String) (ranks : String → ℤ) (enq : List String),
      (∀ x, ranks x ≤ (processSuccs curr ranks enq succs).1 x) ∧
      (∀ x, (processSuccs curr ranks enq succs).1 x ≠ ranks x →
        x ∈ (processSuccs curr ranks enq succs).2) ∧
      (∀ x ∈ enq, x ∈ (processSuccs curr ranks enq succs).2) ∧
      (∀ v ∈ succs,
        (processSuccs curr ranks enq succs).1 curr
            < (processSuccs curr ranks enq succs).1 v ∨
          curr ∈ (processSuccs curr ranks enq succs).2) ∧
      ((∀ x, 0 ≤ ranks x) → ∀ x, 0 ≤ (processSuccs curr ranks enq succs).1 x) := by
  intro succs
  induction succs with
  | nil =>
    intro ranks enq
    refine ⟨fun x => le_refl _, fun x hx => absurd rfl hx, fun x hx => hx, ?_, fun h => h⟩
    intro v hv
    exact absurd hv (List.not_mem_nil v)
  | cons v rest ih =>
    intro ranks enq
    by_cases hle : ranks v ≤ ranks curr
    · have heq : processSuccs curr ranks enq (v :: rest)
          = processSuccs curr (fun x => if x = v then ranks curr + 1 else ranks x)
              (enq ++ [v]) rest := by
        rw [processSuccs, if_pos hle]
      obtain ⟨ih1, ih2, ih3, ih4, ih5⟩ :=
        ih (fun x => if x = v then ranks curr + 1 else ranks x) (enq ++ [v])
      rw [heq]
      have hmono : ∀ x, ranks x
          ≤ (fun x => if x = v then ranks curr + 1 else ranks x) x := by
        intro x
        by_cases hxv : x = v
        · subst hxv
          simp only [eq_self_iff_true, if_true]
          omega
        · simp only [if_neg hxv]
          exact le_refl _
      have hvenq : v ∈ enq ++ [v] := by simp
      refine ⟨?_, ?_, ?_, ?_, ?_⟩
      · intro x
        exact le_trans (hmono x) (ih1 x)
      · intro x hx
        by_cases hx1 : (processSuccs curr
            (fun x => if x = v then ranks curr + 1 else ranks x) (enq ++ [v]) rest).1 x
            = (fun x => if x = v then ranks curr + 1 else ranks x) x
        · have hxv : x = v := by
            by_contra hxv
            apply hx
            rw [hx1]
            simp only [if_neg hxv]
          subst hxv
          exact ih3 _ hvenq
        · exact ih2 x hx1
      · intro x hx
        exact ih3 x (by simp [hx])
      · intro u hu
        rcases List.mem_cons.mp hu with rfl | hurest
        · by_cases hcv : curr = u
          · right
            apply ih3
            rw [hcv]
            exact hvenq
          · by_cases hc1 : (processSuccs curr
                (fun x => if x = u then ranks curr + 1 else ranks x) (enq ++ [u]) rest).1 curr
                = (fun x => if x = u then ranks curr + 1 else ranks x) curr
            · left
              rw [hc1]
              simp only [if_neg hcv]
              have hfin := ih1 u
              simp only [eq_self_iff_true, if_true] at hfin
              omega
            · right
              exact ih2 curr hc1
        · exact ih4 u hurest
      · intro hpos
        refine ih5 ?_
        intro x
        by_cases hxv : x = v
        · subst hxv
          simp only [eq_self_iff_true, if_true]
          have := hpos curr
          omega
        · simp only [if_neg hxv]
          exact hpos x
    · have heq : processSuccs curr ranks enq (v :: rest)
          = processSuccs curr ranks enq rest := by
        rw [processSuccs, if_neg hle]
      obtain ⟨ih1, ih2, ih3, ih4, ih5⟩ := ih ranks enq
      rw [heq]
      refine ⟨ih1, ih2, ih3, ?_, ih5⟩
      intro u hu
      rcases List.mem_cons.mp hu with rfl | hurest
      · by_cases hc1 : (processSuccs curr ranks enq rest).1 curr = ranks curr
        · left
          rw [hc1]
          have := ih1 u
          omega
        · right
          exact ih2 curr hc1
      · exact ih4 u hurest

/-- Master invariant of the rank loop: when it terminates there is a set
of "processed" nodes containing the whole queue, closed over the run,
such that every edge out of a processed node is strictly rank-increasing,
every nonzero rank belongs to a processed node, and ranks stay
non-negative. -/
theorem rankLoop_master (adjacency : List (String × List String)) :
    ∀ (fuel : Nat) (ranks : String → ℤ) (queue popped : List String)
      (ranks2 : String → ℤ),
      rankLoop adjacency fuel ranks queue = some ranks2 →
      (∀ u v, v ∈ adjOf adjacency u → u ∈ queue ∨ u ∉ popped ∨ ranks u < ranks v) →
      (∀ x, ranks x ≠ 0 → x ∈ popped ∨ x ∈ queue) →
      (∀ x, 0 ≤ ranks x) →
      ∃ popped2 : List String,
        (∀ x ∈ popped, x ∈ popped2) ∧
        (∀ x ∈ queue, x ∈ popped2) ∧
        (∀ u v, v ∈ adjOf adjacency u → u ∈ popped2 → ranks2 u < ranks2 v) ∧
        (∀ x, ranks2 x ≠ 0 → x ∈ popped2) ∧
        (∀ x, 0 ≤ ranks2 x) := by
  intro fuel
  induction fuel with
  | zero =>
    intro ranks queue popped ranks2 hrun hinv1 hinv2 hinv3
    cases queue with
    | nil =>
      rw [rankLoop] at hrun
      obtain rfl : ranks = ranks2 := by injection hrun
      refine ⟨popped, fun x hx => hx, fun x hx => absurd hx (List.not_mem_nil x),
        ?_, ?_, hinv3⟩
      · intro u v hedge hup
        rcases hinv1 u v hedge with hq | hnp | hlt
        · exact absurd hq (List.not_mem_nil u)
        · exact absurd hup hnp
        · exact hlt
      · intro x hx
        rcases hinv2 x hx with hp | hq
        · exact hp
        · exact absurd hq (List.not_mem_nil x)
    | cons c rest =>
      rw [rankLoop] at hrun
      exact absurd hrun (by simp)
  | succ fuel ih =>
    intro ranks queue popped ranks2 hrun hinv1 hinv2 hinv3
    cases queue with
    | nil =>
      rw [rankLoop] at hrun
      obtain rfl : ranks = ranks2 := by injection hrun
      refine ⟨popped, fun x hx => hx, fun x hx => absurd hx (List.not_mem_nil x),
        ?_, ?_, hinv3⟩
      · intro u v hedge hup
        rcases hinv1 u v hedge with hq | hnp | hlt
        · exact absurd hq (List.not_mem_nil u)
        · exact absurd hup hnp
        · exact hlt
      · intro x hx
        rcases hinv2 x hx with hp | hq
        · exact hp
        · exact absurd hq (List.not_mem_nil x)
    | cons c rest =>
      rw [rankLoop] at hrun
      obtain ⟨ps1, ps2, _, ps4, ps5⟩ :=
        processSuccs_spec c (adjOf adjacency c) ranks []
      have hinv1n : ∀ u v, v ∈ adjOf adjacency u →
          u ∈ rest ++ (processSuccs c ranks [] (adjOf adjacency c)).2 ∨
          u ∉ c :: popped ∨
          (processSuccs c ranks [] (adjOf adjacency c)).1 u
            < (processSuccs c ranks [] (adjOf adjacency c)).1 v := by
        intro u v hedge
        by_cases huc : u = c
        · subst huc
          rcases ps4 v hedge with hlt | henq
          · exact Or.inr (Or.inr hlt)
          · exact Or.inl (List.mem_append_right rest henq)
        · rcases hinv1 u v hedge with hq | hnp | hlt
          · rcases List.mem_cons.mp hq with rfl | hqrest
            · exact absurd rfl huc
            · exact Or.inl (List.mem_append_left _ hqrest)
          · refine Or.inr (Or.inl ?_)
            intro hmem
            rcases List.mem_cons.mp hmem with rfl | hmem2
            · exact huc rfl
            · exact hnp hmem2
          · by_cases hchg : (processSuccs c ranks [] (adjOf adjacency c)).1 u = ranks u
            · refine Or.inr (Or.inr ?_)
              rw [hchg]
              exact lt_of_lt_of_le hlt (ps1 v)
            · exact Or.inl (List.mem_append_right rest (ps2 u hchg))
      have hinv2n : ∀ x, (processSuccs c ranks [] (adjOf adjacency c)).1 x ≠ 0 →
          x ∈ c :: popped ∨
          x ∈ rest ++ (processSuccs c ranks [] (adjOf adjacency c)).2 := by
        intro x hx
        by_cases hchg : (processSuccs c ranks [] (adjOf adjacency c)).1 x = ranks x
        · rw [hchg] at hx
          rcases hinv2 x hx with hp | hq
          · exact Or.inl (List.mem_cons_of_mem c hp)
          · rcases List.mem_cons.mp hq with rfl | hq2
            · exact Or.inl (List.mem_cons_self _ _)
            · exact Or.inr (List.mem_append_left _ hq2)
        · exact Or.inr (List.mem_append_right rest (ps2 x hchg))
      obtain ⟨popped2, hp1, hp2, hp3, hp4, hp5⟩ :=
        ih _ _ (c :: popped) ranks2 hrun hinv1n hinv2n (ps5 hinv3)
      refine ⟨popped2, ?_, ?_, hp3, hp4, hp5⟩
      · intro x hx
        exact hp1 x (List.mem_cons_of_mem c hx)
      · intro x hx
        rcases List.mem_cons.mp hx with rfl | hx2
        · exact hp1 x (List.mem_cons_self _ _)
        · exact hp2 x (List.mem_append_left _ hx2)

/-- The rank stored in a node map for an id (0 when absent). -/
def rankOf (nm : List (String × LayoutNode)) (id : String) : ℤ :=
  match nm.lookup id with
  | some n => n.rank
  | none => 0

theorem lookup_mem_layout :
    ∀ (nm : List (String × LayoutNode)) (x : String) (n : LayoutNode),
      nm.lookup x = some n → (x, n) ∈ nm
  | [], x, n, h => absurd h (by simp)
  | p :: rest, x, n, h => by
      rw [List.lookup] at h
      split at h
      · next hbeq =>
          injection h with h2
          have hx : x = p.1 := eq_of_beq hbeq
          have : (x, n) = p := by
            rw [hx, ← h2]
          rw [this]
          exact List.mem_cons_self p rest
      · next hbeq =>
          exact List.mem_cons_of_mem p (lookup_mem_layout rest x n h)

/-- Looking up a key after the rank write-back yields the stored node
with its rank replaced. -/
theorem lookup_map_rank (g : String → ℤ) :
    ∀ (nm : List (String × LayoutNode)) (x : String) (n : LayoutNode),
      nm.lookup x = some n →
      (nm.map (fun p => (p.1, { p.2 with rank := g p.1 }))).lookup x
        = some { n with rank := g x }
  | [], x, n, h => absurd h (by simp)
  | p :: rest, x, n, h => by
      rw [List.lookup] at h
      rw [List.map_cons, List.lookup]
      split at h
      · next hbeq =>
          injection h with h2
          have hx : x = p.1 := eq_of_beq hbeq
          rw [hx, ← h2]
      · next hbeq =>
          exact lookup_map_rank g rest x n h

/-- From a node with no successors only the node itself is reachable. -/
theorem reach_eq_of_no_succ (adjacency : List (String × List String)) (a : String)
    (h : adjOf adjacency a = []) :
    ∀ b, Relation.ReflTransGen (fun x y => y ∈ adjOf adjacency x) a b → b = a := by
  intro b hr
  induction hr with
  | refl => rfl
  | tail hab hbc ih =>
      subst ih
      rw [h] at hbc
      exact absurd hbc (List.not_mem_nil _)

/-- C4 (amended): after `assignRanks` completes on a node map whose ranks
start at 0, every graph edge `u → v` such that `u` is reachable from the
initial seed queue (and, as in the original claim, there is no cycle
through `v` back to `u`) satisfies `rank v > rank u`. -/
theorem assignRanks_monotone_on_reachable
    (nodeMap : List (String × LayoutNode)) (adjacency : List (String × List String))
    (fuel : Nat) (nm2 : List (String × LayoutNode))
    (hrun : assignRanks nodeMap adjacency fuel = some nm2)
    (hzero : ∀ p ∈ nodeMap, p.2.rank = 0)
    (u v : String) (hedge : v ∈ adjOf adjacency u)
    (hreach : ∃ s ∈ seedQueue nodeMap adjacency,
      Relation.ReflTransGen (fun x y => y ∈ adjOf adjacency x) s u)
    (hnocycle : ¬ Relation.ReflTransGen (fun x y => y ∈ adjOf adjacency x) v u)
    (hukey : (nodeMap.lookup u).isSome) (hvkey : (nodeMap.lookup v).isSome) :
    rankOf nm2 u < rankOf nm2 v := by
  rw [assignRanks] at hrun
  split at hrun
  case h_2 => exact absurd hrun (by simp)
  case h_1 ranks2 heq =>
    have hzero0 : ∀ x : String,
        ((match nodeMap.lookup x with | some n => n.rank | none => 0) : ℤ) = 0 := by
      intro x
      cases hl : nodeMap.lookup x with
      | none => rfl
      | some n => exact hzero (x, n) (lookup_mem_layout nodeMap x n hl)
    obtain ⟨popped2, _, hp2, hp3, hp4, hp5⟩ :=
      rankLoop_master adjacency fuel _ (seedQueue nodeMap adjacency) [] ranks2 heq
        (fun x y _ => Or.inr (Or.inl (List.not_mem_nil x)))
        (fun x hx => absurd (hzero0 x) hx)
        (fun x => le_of_eq (hzero0 x).symm)
    have hclosed : ∀ x ∈ popped2, ∀ y ∈ adjOf adjacency x, y ∈ popped2 := by
      intro x hx y hy
      have hlt := hp3 x y hy hx
      have h0 := hp5 x
      exact hp4 y (by omega)
    have hupop : u ∈ popped2 := by
      obtain ⟨s, hs, hreachSU⟩ := hreach
      clear hnocycle hedge hukey
      induction hreachSU with
      | refl => exact hp2 s hs
      | tail hab hstep ih => exact hclosed _ ih _ hstep
    have hlt := hp3 u v hedge hupop
    obtain ⟨nu, hnu⟩ := Option.isSome_iff_exists.mp hukey
    obtain ⟨nv, hnv⟩ := Option.isSome_iff_exists.mp hvkey
    obtain rfl : nodeMap.map (fun p => (p.1, { p.2 with rank := ranks2 p.1 })) = nm2 := by
      injection hrun
    rw [rankOf, rankOf, lookup_map_rank ranks2 nodeMap u nu hnu,
      lookup_map_rank ranks2 nodeMap v nv hnv]
    exact hlt

/-- A two-task chain `A → B` used to instantiate the monotonicity
theorem. -/
def chainElements : List BpmnElement :=
  [mkFlowElement "A" ["B"], mkFlowElement "B" []]

/-- The rank assignment computed for the chain with fuel 10. -/
def chainResult : List (String × LayoutNode) :=
  (assignRanks (buildNodeMap chainElements) (buildAdjacency chainElements) 10).getD []

/-- Witness for C4: on the chain `A → B` the theorem yields
`rank A < rank B`. -/
theorem assignRanks_monotone_on_reachable_witness :
    rankOf chainResult "A" < rankOf chainResult "B" :=
  assignRanks_monotone_on_reachable
    (buildNodeMap chainElements) (buildAdjacency chainElements) 10 chainResult
    rfl
    (by decide)
    "A" "B"
    (by decide)
    ⟨"A", by decide, Relation.ReflTransGen.refl⟩
    (fun hr => absurd
      (reach_eq_of_no_succ (buildAdjacency chainElements) "B" (by decide) "A" hr)
      (by decide))
    (by decide) (by decide)

/-- A graph with an isolated seed `A`, an unreachable cycle `X ⇆ Y` and an
edge `Y → Z` out of the cycle. -/
def unreachableCycleElements : List BpmnElement :=
  [mkFlowElement "A" [], mkFlowElement "X" ["Y"],
   mkFlowElement "Y" ["X", "Z"], mkFlowElement "Z" []]

/-- The rank assignment computed for that graph with fuel 5. -/
def unreachableCycleResult : List (String × LayoutNode) :=
  (assignRanks (buildNodeMap unreachableCycleElements)
    (buildAdjacency unreachableCycleElements) 5).getD []

/-- Counterexample for C4 as stated: `assignRanks` completes on this
graph (only the isolated seed `A` is ever processed), the edge `Y → Z`
has no cycle through `Z` back to `Y`, yet `rank Z = rank Y = 0`. -/
theorem assignRanks_rank_monotonicity_cex :
    (assignRanks (buildNodeMap unreachableCycleElements)
      (buildAdjacency unreachableCycleElements) 5).isSome = true ∧
    "Z" ∈ adjOf (buildAdjacency unreachableCycleElements) "Y" ∧
    ¬ Relation.ReflTransGen
      (fun x y => y ∈ adjOf (buildAdjacency unreachableCycleElements) x) "Z" "Y" ∧
    ¬ rankOf unreachableCycleResult "Y" < rankOf unreachableCycleResult "Z" := by
  refine ⟨by decide, by decide, ?_, by decide⟩
  intro hr
  exact absurd
    (reach_eq_of_no_succ (buildAdjacency unreachableCycleElements) "Z" (by decide) "Y" hr)
    (by decide)

/-! ### The lane geometry engine (`layout.geometry.ts`) -/

/-- `LaneMeta` (`layout.types.ts`).  `nodesByRank` is only ever read via
`.get(r) ?? []`, so it is modelled as a total function. -/
structure LaneMeta where
  id : String
  element : BpmnElement
  maxStack : ℚ
  y : ℚ
  height : ℚ
  nodesByRank : ℤ → List LayoutNode

/-- The per-lane input record built by the service
(`bpmn-layout.service.ts:71-76`). -/
structure LaneInput where
  id : String
  y : ℚ
  height : ℚ
  element : BpmnElement
deriving DecidableEq, Repr

/-- Update the lane entry with the given id (the source mutates the
`LaneMeta` object found by `laneData.get`; absent lanes are skipped). -/
def updateLane (laneData : List (String × LaneMeta)) (laneId : String)
    (f : LaneMeta → LaneMeta) : List (String × LaneMeta) :=
  laneData.map (fun q => if q.1 = laneId then (q.1, f q.2) else q)

/-- Append a node to its rank bucket (`meta.nodesByRank.get(rank).push`). -/
def pushNode (node : LayoutNode) (meta : LaneMeta) : LaneMeta :=
  { meta with nodesByRank := fun r =>
      if r = node.rank then meta.nodesByRank node.rank ++ [node]
      else meta.nodesByRank r }

/-- `buildLaneData` (`layout.geometry.ts:3-30`): initialise one meta per
lane, then bucket every node by lane and rank while tracking the maximal
global rank. -/
def buildLaneData (lanes : List LaneInput) (nodeMap : List (String × LayoutNode)) :
    List (String × LaneMeta) × ℤ :=
  let init : List (String × LaneMeta) := lanes.map (fun lane =>
    (lane.id, { id := lane.id, element := lane.element, maxStack := 1,
                y := lane.y, height := lane.height, nodesByRank := fun _ => [] }))
  nodeMap.foldl (fun acc p =>
    (updateLane acc.1 p.2.laneId (pushNode p.2),
     if p.2.rank > acc.2 then p.2.rank else acc.2)) (init, 0)

/-- The integer range `0 .. n` of the source's `for (r = 0; r <= n; r++)`
loops (empty when `n < 0`). -/
def intRange0 (n : ℤ) : List ℤ :=
  (List.range (n + 1).toNat).map Int.ofNat

/-- Column width of one rank (`layout.geometry.ts:32-47`): max of 100 and
all node widths at that rank across lanes. -/
def rankWidthAt (laneData : List (String × LaneMeta)) (r : ℤ) : ℚ :=
  laneData.foldl (fun mw q =>
    (q.2.nodesByRank r).foldl (fun mw2 n => if n.width > mw2 then n.width else mw2) mw)
    100

/-- `computeRankWidths` (`layout.geometry.ts:32-47`). -/
def computeRankWidths (laneData : List (String × LaneMeta)) (maxGlobalRank : ℤ) :
    List (ℤ × ℚ) :=
  (intRange0 maxGlobalRank).map (fun r => (r, rankWidthAt laneData r))

/-- `rankWidths.get(i) ?? 100`. -/
def widthOf (rankWidths : List (ℤ × ℚ)) (r : ℤ) : ℚ :=
  (rankWidths.lookup r).getD 100

/-- Stack height of one rank bucket (`layout.geometry.ts:57-59`): sum of
node heights plus `(count − 1) × rowSpacing` (JS arithmetic: −rowSpacing
for an empty bucket). -/
def stackHeightAt (K : LayoutConstants) (nodes : List LayoutNode) : ℚ :=
  nodes.foldl (fun s n => s + n.height) 0 + (((nodes.length : ℤ) - 1 : ℤ) : ℚ) * K.rowSpacing

/-- The `maxStackHeight` loop of `computeLaneHeights`
(`layout.geometry.ts:54-62`). -/
def maxStackHeightOf (K : LayoutConstants) (meta : LaneMeta) (maxGlobalRank : ℤ) : ℚ :=
  (intRange0 maxGlobalRank).foldl (fun ms r =>
    if stackHeightAt K (meta.nodesByRank r) > ms then stackHeightAt K (meta.nodesByRank r)
    else ms) 0

/-- Per-lane body of `computeLaneHeights` (`layout.geometry.ts:49-66`). -/
def computeLaneHeightsMeta (K : LayoutConstants) (maxGlobalRank : ℤ)
    (meta : LaneMeta) : LaneMeta :=
  { meta with
    height := jsMax (meta.element.height.getD 0) (maxStackHeightOf K meta maxGlobalRank + K.lanePadding * 2) }

/-- `computeLaneHeights` (`layout.geometry.ts:49-66`): every lane's height
becomes the max of its element's height and the required height. -/
def computeLaneHeights (laneData : List (String × LaneMeta)) (maxGlobalRank : ℤ)
    (K : LayoutConstants) : List (String × LaneMeta) :=
  laneData.map (fun q => (q.1, computeLaneHeightsMeta K maxGlobalRank q.2))

/-! ### C8: lane height lower bound -/

theorem le_jsMax_left (a b : ℚ) : a ≤ jsMax a b := by
  unfold jsMax
  split_ifs with h
  · exact h
  · exact le_refl a

theorem le_jsMax_right (a b : ℚ) : b ≤ jsMax a b := by
  unfold jsMax
  split_ifs with h
  · exact le_refl b
  · linarith

/-- The running maximum of the stack-height loop never decreases. -/
theorem maxStack_foldl_ge_init (K : LayoutConstants) (meta : LaneMeta) :
    ∀ (l : List ℤ) (acc : ℚ),
      acc ≤ l.foldl (fun ms r =>
        if stackHeightAt K (meta.nodesByRank r) > ms then
          stackHeightAt K (meta.nodesByRank r)
        else ms) acc
  | [], acc => le_refl acc
  | r :: rest, acc => by
      rw [List.foldl_cons]
      refine le_trans ?_ (maxStack_foldl_ge_init K meta rest _)
      split_ifs with h
      · linarith
      · exact le_refl acc

/-- The running maximum of the stack-height loop dominates every visited
rank's stack height. -/
theorem maxStack_foldl_ge_mem (K : LayoutConstants) (meta : LaneMeta) :
    ∀ (l : List ℤ) (acc : ℚ) (r : ℤ), r ∈ l →
      stackHeightAt K (meta.nodesByRank r) ≤ l.foldl (fun ms r2 =>
        if stackHeightAt K (meta.nodesByRank r2) > ms then
          stackHeightAt K (meta.nodesByRank r2)
        else ms) acc
  | [], _, r, hr => absurd hr (List.not_mem_nil r)
  | r0 :: rest, acc, r, hr => by
      rcases List.mem_cons.mp hr with rfl | hrrest
      · rw [List.foldl_cons]
        refine le_trans ?_ (maxStack_foldl_ge_init K meta rest _)
        split_ifs with h
        · exact le_refl _
        · linarith
      · rw [List.foldl_cons]
        exact maxStack_foldl_ge_mem K meta rest _ r hrrest

theorem mem_intRange0 (r n : ℤ) (hr0 : 0 ≤ r) (hrn : r ≤ n) : r ∈ intRange0 n := by
  refine List.mem_map.mpr ⟨r.toNat, List.mem_range.mpr (by omega), Int.toNat_of_nonneg hr0⟩

/-- C8: after `computeLaneHeights`, every lane's height is at least its
element's original height, and at least `stack height + 2 × lanePadding`
for every rank in `0 .. maxGlobalRank`. -/
theorem computeLaneHeights_lower_bound (laneData : List (String × LaneMeta))
    (maxGlobalRank : ℤ) (K : LayoutConstants) (p : String × LaneMeta)
    (hp : p ∈ computeLaneHeights laneData maxGlobalRank K)
    (r : ℤ) (hr0 : 0 ≤ r) (hrn : r ≤ maxGlobalRank) :
    p.2.element.height.getD 0 ≤ p.2.height ∧
    stackHeightAt K (p.2.nodesByRank r) + K.lanePadding * 2 ≤ p.2.height := by
  obtain ⟨q, hq, rfl⟩ := List.mem_map.mp hp
  dsimp only [computeLaneHeightsMeta]
  constructor
  · exact le_jsMax_left _ _
  · refine le_trans ?_ (le_jsMax_right _ _)
    have hms := maxStack_foldl_ge_mem K q.2 (intRange0 maxGlobalRank) 0 r
      (mem_intRange0 r maxGlobalRank hr0 hrn)
    have : stackHeightAt K (q.2.nodesByRank r) ≤ maxStackHeightOf K q.2 maxGlobalRank := hms
    linarith

/-- Element and meta used to instantiate the lane-height theorem. -/
def laneWitnessElement : BpmnElement :=
  { id := "L", type := "bpmn:Lane", parentId := none, x := some 0, y := some 0,
    width := some 600, height := some 100, outgoing := [],
    hidden := false, hasBusinessObject := true }

/-- A lane meta holding one 80-high task at rank 0. -/
def laneWitnessMeta : LaneMeta :=
  { id := "L", element := laneWitnessElement, maxStack := 1, y := 0, height := 100,
    nodesByRank := fun r =>
      if r = 0 then
        [{ id := "T", element := mkFlowElement "T" [], rank := 0, laneId := "L",
           width := 100, height := 80 }]
      else [] }

/-- Witness for C8: the bound applied at the concrete one-task lane and
rank 0. -/
theorem computeLaneHeights_lower_bound_witness :
    (("L", computeLaneHeightsMeta DEFAULT_LAYOUT_CONSTANTS 0 laneWitnessMeta) :
        String × LaneMeta).2.element.height.getD 0
      ≤ (("L", computeLaneHeightsMeta DEFAULT_LAYOUT_CONSTANTS 0 laneWitnessMeta) :
        String × LaneMeta).2.height ∧
    stackHeightAt DEFAULT_LAYOUT_CONSTANTS
        ((("L", computeLaneHeightsMeta DEFAULT_LAYOUT_CONSTANTS 0 laneWitnessMeta) :
          String × LaneMeta).2.nodesByRank 0)
      + DEFAULT_LAYOUT_CONSTANTS.lanePadding * 2
      ≤ (("L", computeLaneHeightsMeta DEFAULT_LAYOUT_CONSTANTS 0 laneWitnessMeta) :
        String × LaneMeta).2.height :=
  computeLaneHeights_lower_bound [("L", laneWitnessMeta)] 0 DEFAULT_LAYOUT_CONSTANTS
    ("L", computeLaneHeightsMeta DEFAULT_LAYOUT_CONSTANTS 0 laneWitnessMeta)
    (by simp [computeLaneHeights]) 0 (by omega) (by omega)

/-- `NodePosition` (`layout.geometry.ts:68-75`). -/
structure NodePosition where
  nodeId : String
  x : ℚ
  y : ℚ
  dx : ℚ
  dy : ℚ
  laneId : String
deriving DecidableEq, Repr

/-- `LaneResize` (`layout.geometry.ts:77-83`); the opaque `element`
back-reference carries the lane's element record. -/
structure LaneResize where
  laneId : String
  y : ℚ
  height : ℚ
  element : BpmnElement
  isRoot : Bool
deriving DecidableEq, Repr

/-- Stable sort of the lane metas by `(element.y ?? 0)` — model of the
numeric `Array.prototype.sort` in `layout.geometry.ts:94-96`. -/
def orderedInsertLane (m : LaneMeta) : List LaneMeta → List LaneMeta
  | [] => [m]
  | d :: ds =>
      if m.element.y.getD 0 ≤ d.element.y.getD 0 then m :: d :: ds
      else d :: orderedInsertLane m ds

def sortLanesByY : List LaneMeta → List LaneMeta
  | [] => []
  | m :: ms => orderedInsertLane m (sortLanesByY ms)

/-- The lane stacking loop of `computeLayout` (`layout.geometry.ts:100-117`):
walk the sorted lanes accumulating `currentLaneY`, emit one `LaneResize`
per lane, and record each lane's assigned `y` (the source mutates
`meta.y`). -/
def laneStackLoop (rootId : Option String) :
    List LaneMeta → ℚ → List LaneResize × List (String × ℚ)
  | [], _ => ([], [])
  | m :: rest, curY =>
      if rootId = some m.element.id then
        let r := laneStackLoop rootId rest curY
        ({ laneId := m.id, y := 0, height := m.height, element := m.element,
           isRoot := true } :: r.1,
         (m.id, 0) :: r.2)
      else
        let r := laneStackLoop rootId rest (curY + m.height)
        ({ laneId := m.id, y := curY, height := m.height, element := m.element,
           isRoot := false } :: r.1,
         (m.id, curY) :: r.2)

/-- `computeLayout` (`layout.geometry.ts:85-160`): stack the lanes
vertically, then position every node on the global column grid, centred
in its rank stack inside its (re-stacked) lane. -/
def computeLayout (laneData : List (String × LaneMeta))
    (nodeMap : List (String × LayoutNode)) (rankWidths : List (ℤ × ℚ))
    (K : LayoutConstants) (rootId : Option String) :
    List NodePosition × List LaneResize :=
  let laneList := sortLanesByY (laneData.map (fun q => q.2))
  let startY : ℚ := match laneList with
    | [] => 0
    | m :: _ => m.element.y.getD 0
  let stacked := laneStackLoop rootId laneList startY
  let laneData2 := laneData.map (fun q =>
    (q.1, { q.2 with y := (stacked.2.lookup q.1).getD q.2.y }))
  let nodePositions := nodeMap.filterMap (fun p =>
    match laneData2.lookup p.2.laneId with
    | none => none
    | some meta =>
        let isRoot := rootId = some meta.element.id
        let startX := if isRoot then K.startXOffset else meta.element.x.getD 0 + K.lanePadding
        let newX := (intRange0 (p.2.rank - 1)).foldl
          (fun s i => s + widthOf rankWidths i + K.colSpacing) startX
        let siblings := meta.nodesByRank p.2.rank
        let index := siblings.findIdx (fun n => n = p.2)
        let totalStackHeight := siblings.foldl (fun s n => s + n.height) 0
          + ((siblings.length - 1 : ℕ) : ℚ) * K.rowSpacing
        let startStackY := meta.y + meta.height / 2 - totalStackHeight / 2
        let stackOffset := (siblings.take index).foldl
          (fun s n => s + n.height + K.rowSpacing) 0
        let newY := startStackY + stackOffset
        some { nodeId := p.2.id, x := newX, y := newY,
               dx := newX - p.2.element.x.getD 0, dy := newY - p.2.element.y.getD 0,
               laneId := p.2.laneId })
  (nodePositions, stacked.1)

/-! ### The layout orchestrator (`bpmn-layout.service.ts`) -/

/-- A geometry mutation issued to the external editor (the three commands
of `context.modeling`); element/parent references are recorded by id. -/
inductive LayoutCommand where
  | moveElements (ids : List String) (dx : ℚ) (dy : ℚ) (parentId : Option String)
  | resizeShape (id : String) (x : ℚ) (y : ℚ) (width : ℚ) (height : ℚ)
  | updateWaypoints (connectionId : String) (waypoints : List Point)
deriving DecidableEq, Repr

/-- `getLanes` (`bpmn-layout.service.ts:169-178`): lanes, falling back to
participants, falling back to processes. -/
def getLanes (registry : List BpmnElement) : List BpmnElement :=
  let lanes := registry.filter (fun e => e.type = "bpmn:Lane")
  let lanes2 :=
    if lanes.isEmpty then registry.filter (fun e => e.type = "bpmn:Participant")
    else lanes
  if lanes2.isEmpty then registry.filter (fun e => e.type = "bpmn:Process")
  else lanes2

/-- `getFlowElements` (`bpmn-layout.service.ts:180-191`). -/
def getFlowElements (registry : List BpmnElement) : List BpmnElement :=
  registry.filter (fun e =>
    e.type ≠ "bpmn:Lane" ∧ e.type ≠ "bpmn:Participant" ∧ e.type ≠ "bpmn:Process" ∧
    e.type ≠ "bpmn:SequenceFlow" ∧ e.type ≠ "bpmn:Association" ∧ e.type ≠ "label" ∧
    e.hidden = false ∧ e.hasBusinessObject = true)

/-- The `Set` of connections collected by `rerouteConnections`
(`bpmn-layout.service.ts:193-198`): first-seen order, deduplicated by
identity (ids are unique). -/
def dedupeConnections (l : List BpmnConnection) : List BpmnConnection :=
  l.foldl (fun acc c => if acc.any (fun d => d.id = c.id) then acc else acc ++ [c]) []

/-- `rerouteConnections` (`bpmn-layout.service.ts:193-218`): one
`updateWaypoints` per collected connection whose source and target
resolve, with the Manhattan route between their boxes. -/
def rerouteCommands (registry elements : List BpmnElement) : List LayoutCommand :=
  (dedupeConnections ((elements.map (fun el => el.outgoing)).join)).filterMap
    (fun conn =>
      match registry.find? (fun e => e.id = conn.sourceId),
          registry.find? (fun e => e.id = conn.targetId) with
      | some s, some t =>
          some (.updateWaypoints conn.id (computeManhattanWaypoints
            (s.x.getD 0) (s.y.getD 0) (s.width.getD 0) (s.height.getD 0)
            (t.x.getD 0) (t.y.getD 0) (t.width.getD 0) (t.height.getD 0)))
      | _, _ => none)

/-- `autoLayout` (`bpmn-layout.service.ts:58-122`), modelled as the list
of mutation commands it issues (`none` when the rank loop would not have
terminated on the given fuel). -/
def autoLayoutCommands (registry : List BpmnElement) (rootId : Option String)
    (K : LayoutConstants) (fuel : Nat) : Option (List LayoutCommand) :=
  let lanes := getLanes registry
  let elements := getFlowElements registry
  if lanes.length = 0 ∨ elements.length = 0 then some []
  else
    match assignRanks (buildNodeMap elements) (buildAdjacency elements) fuel with
    | none => none
    | some nodeMap2 =>
        let laneInput : List LaneInput := lanes.map (fun lane =>
          { id := lane.id, y := lane.y.getD 0, height := lane.height.getD 0,
            element := lane })
        let built := buildLaneData laneInput nodeMap2
        let laneData2 := computeLaneHeights built.1 built.2 K
        let rankWidths := computeRankWidths laneData2 built.2
        let layout := computeLayout laneData2 nodeMap2 rankWidths K rootId
        let laneCmds := layout.2.filterMap (fun resize =>
          if resize.isRoot then none
          else if resize.element.height ≠ some resize.height then
            some (.resizeShape resize.element.id (resize.element.x.getD 0) resize.y
              (resize.element.width.getD 0) resize.height)
          else if resize.element.y ≠ some resize.y then
            some (.moveElements [resize.element.id] 0
              (resize.y - resize.element.y.getD 0) none)
          else none)
        let nodeCmds := layout.1.filterMap (fun pos =>
          match nodeMap2.lookup pos.nodeId with
          | none => none
          | some node =>
              match laneData2.lookup pos.laneId with
              | none => none
              | some meta =>
                  if 1 < jsAbs pos.dx ∨ 1 < jsAbs pos.dy then
                    some (.moveElements [node.element.id] pos.dx pos.dy
                      (some (((lanes.find? (fun l => l.id = pos.laneId)).getD
                        meta.element).id)))
                  else none)
        some (laneCmds ++ nodeCmds ++ rerouteCommands registry elements)

/-! ### C9: autoLayout is a no-op without lanes or eligible elements -/

/-- C9: whenever the lane query yields no lanes or the flow-element query
yields no eligible elements, `autoLayout` issues no mutation command. -/
theorem autoLayout_noop_without_input (registry : List BpmnElement)
    (rootId : Option String) (K : LayoutConstants) (fuel : Nat)
    (h : getLanes registry = [] ∨ getFlowElements registry = []) :
    autoLayoutCommands registry rootId K fuel = some [] := by
  have hcond : (getLanes registry).length = 0 ∨ (getFlowElements registry).length = 0 := by
    rcases h with h | h <;> [left; right] <;> rw [h] <;> rfl
  rw [autoLayoutCommands, if_pos hcond]

/-- Witness for C9: an empty element registry has no lanes, and
`autoLayout` issues nothing on it. -/
theorem autoLayout_noop_without_input_witness :
    autoLayoutCommands [] none DEFAULT_LAYOUT_CONSTANTS 10 = some [] :=
  autoLayout_noop_without_input [] none DEFAULT_LAYOUT_CONSTANTS 10 (Or.inl rfl)

/-! ### C10: computeResolvedWaypoints never mutates existing points

To state the frame property the same source function
(`layout.collision.ts:156-208`) is embedded once more at the level of a
mutable point store: points live in a heap (`List Point` addressed by
index), connections hold point references, and the JS object mutations
(`p.y += offset`) become heap updates.  The fresh copy
`waypoints.map(w => ({x: w.x, y: w.y}))` allocates at the end of the
heap. -/

/-- A connection whose `waypoints` are references into a point heap. -/
structure ConnectionRef where
  id : String
  waypoints : List Nat
  source : String
  target : String
deriving DecidableEq, Repr

/-- Dereference a list of point references. -/
def readPoints (heap : List Point) (ids : List Nat) : List Point :=
  ids.map (fun i => heap.getD i ⟨0, 0⟩)

/-- The unordered-endpoint-pair test on reference-level connections. -/
def isParallelRef (a b : ConnectionRef) : Bool :=
  (a.source = b.source ∧ a.target = b.target) ∨
    (a.source = b.target ∧ a.target = b.source)

def orderedInsertRefById (c : ConnectionRef) : List ConnectionRef → List ConnectionRef
  | [] => [c]
  | d :: ds => if idLe c.id d.id then c :: d :: ds else d :: orderedInsertRefById c ds

def sortRefById : List ConnectionRef → List ConnectionRef
  | [] => []
  | c :: cs => orderedInsertRefById c (sortRefById cs)

def shiftY (offset : ℚ) (p : Point) : Point :=
  { p with y := p.y + offset }

/-- Heap-level `applyDriftToWaypoints`: shift `y` of the points referenced
at positions 2 through second-to-last. -/
def applyDriftToWaypointsHeap (heap : List Point) (ids : List Nat) (offset : ℚ) :
    List Point :=
  ((ids.drop 2).dropLast).foldl
    (fun h i => h.set i (shiftY offset (h.getD i ⟨0, 0⟩))) heap

/-- Heap-level `applySegmentDrift`: shift the two points referenced at
positions `si` and `si + 1`. -/
def applySegmentDriftHeap (heap : List Point) (ids : List Nat) (si : Nat)
    (offset : ℚ) (o : Orientation) : List Point :=
  if si + 1 ≥ ids.length then heap
  else
    let i1 := ids.getD si 0
    let i2 := ids.getD (si + 1) 0
    let h1 := heap.set i1 (driftPoint o offset (heap.getD i1 ⟨0, 0⟩))
    h1.set i2 (driftPoint o offset (h1.getD i2 ⟨0, 0⟩))

/-- Heap-level `computeResolvedWaypoints`: allocate the fresh copy at the
end of the heap, then run the same fan-out and nudge logic writing only
through the copy's references.  Returns the final heap, the copy's
references, and the `updated` flag. -/
def computeResolvedWaypointsHeap (heap : List Point) (targetConnection : ConnectionRef)
    (otherConnections : List ConnectionRef) (constants : LayoutConstants) :
    List Point × List Nat × Bool :=
  let copyIds := List.range' heap.length targetConnection.waypoints.length
  let heap1 := heap ++ readPoints heap targetConnection.waypoints
  if copyIds.length < 2 then (heap1, copyIds, false)
  else
    let parallelGroup := otherConnections.filter
      (fun other => isParallelRef targetConnection other)
    let afterParallel : List Point × Bool :=
      if parallelGroup.length > 0 then
        let allParallel := sortRefById (targetConnection :: parallelGroup)
        let index := allParallel.findIdx (fun c => c.id = targetConnection.id)
        let n := allParallel.length
        let offset := ((index : ℚ) - ((n : ℚ) - 1) / 2) * constants.parallelOffset
        if jsAbs offset > 1 then (applyDriftToWaypointsHeap heap1 copyIds offset, true)
        else (heap1, false)
      else (heap1, false)
    let final := otherConnections.foldl
      (fun (acc : List Point × Bool) other =>
        if isParallelRef targetConnection other then acc
        else
          match checkConnectionOverlapDetails (readPoints acc.1 copyIds)
              ⟨other.id, readPoints acc.1 other.waypoints, other.source, other.target⟩
              (fun s1 s2 => checkSegmentCollision s1 s2 constants.collisionThreshold) with
          | some overlap =>
              (applySegmentDriftHeap acc.1 copyIds overlap.segmentIndex
                (constants.parallelOffset *
                  (if overlap.isPositiveDirection then 1 else -1)) overlap.orientation,
               true)
          | none => acc)
      afterParallel
    (final.1, copyIds, final.2)

/-- A fold of point shifts at indices all different from `j` leaves cell
`j` unread and unwritten. -/
theorem foldl_setShift_frame (offset : ℚ) (j : Nat) :
    ∀ (idxs : List Nat) (heap : List Point), (∀ i ∈ idxs, i ≠ j) →
      (idxs.foldl (fun h i => h.set i (shiftY offset (h.getD i ⟨0, 0⟩))) heap)[j]?
        = heap[j]?
  | [], _, _ => rfl
  | i :: rest, heap, h => by
      rw [List.foldl_cons,
        foldl_setShift_frame offset j rest _ (fun x hx => h x (List.mem_cons_of_mem i hx))]
      exact List.getElem?_set_ne (h i (List.mem_cons_self i rest))

/-- Members of the copy's reference list live past the original heap. -/
theorem copyIds_ge (n len i : Nat) (hi : i ∈ List.range' n len) : n ≤ i := by
  rw [List.mem_range'_1] at hi
  omega

theorem applyDriftToWaypointsHeap_frame (heap : List Point) (ids : List Nat)
    (offset : ℚ) (j : Nat) (h : ∀ i ∈ ids, i ≠ j) :
    (applyDriftToWaypointsHeap heap ids offset)[j]? = heap[j]? := by
  refine foldl_setShift_frame offset j _ heap ?_
  intro i hi
  exact h i (List.mem_of_mem_drop (List.mem_of_mem_dropLast hi))

theorem applySegmentDriftHeap_frame (heap : List Point) (ids : List Nat)
    (si : Nat) (offset : ℚ) (o : Orientation) (j : Nat) (h : ∀ i ∈ ids, i ≠ j) :
    (applySegmentDriftHeap heap ids si offset o)[j]? = heap[j]? := by
  unfold applySegmentDriftHeap
  split_ifs with hlen
  · rfl
  · have h1 : si < ids.length := by omega
    have h2 : si + 1 < ids.length := by omega
    rw [List.getElem?_set_ne, List.getElem?_set_ne]
    · rw [List.getD_eq_getElem _ _ h1]
      exact h _ (List.getElem_mem h1)
    · rw [List.getD_eq_getElem _ _ h2]
      exact h _ (List.getElem_mem h2)

/-- The nudge loop writes only through the given reference list. -/
theorem nudge_heap_fold_frame (targetConnection : ConnectionRef)
    (constants : LayoutConstants) (copyIds : List Nat) (j : Nat)
    (h : ∀ i ∈ copyIds, i ≠ j) :
    ∀ (others : List ConnectionRef) (acc : List Point × Bool),
      ((others.foldl (fun (acc : List Point × Bool) other =>
        if isParallelRef targetConnection other then acc
        else
          match checkConnectionOverlapDetails (readPoints acc.1 copyIds)
              ⟨other.id, readPoints acc.1 other.waypoints, other.source, other.target⟩
              (fun s1 s2 => checkSegmentCollision s1 s2 constants.collisionThreshold) with
          | some overlap =>
              (applySegmentDriftHeap acc.1 copyIds overlap.segmentIndex
                (constants.parallelOffset *
                  (if overlap.isPositiveDirection then 1 else -1)) overlap.orientation,
               true)
          | none => acc) acc).1)[j]? = acc.1[j]?
  | [], _ => rfl
  | o :: os, acc => by
      rw [List.foldl_cons]
      rw [nudge_heap_fold_frame targetConnection constants copyIds j h os _]
      split
      · rfl
      · split
        · exact applySegmentDriftHeap_frame _ _ _ _ _ j h
        · rfl

/-- C10: `computeResolvedWaypoints` never mutates an existing point: every
heap cell that existed before the call is unchanged afterwards — all
drift is applied to the freshly allocated copy, whose references are what
it returns; and when the target has fewer than 2 waypoints it returns the
untouched copy with `updated = false`. -/
theorem computeResolvedWaypoints_frame (heap : List Point)
    (targetConnection : ConnectionRef) (otherConnections : List ConnectionRef)
    (constants : LayoutConstants) (j : Nat) (hj : j < heap.length) :
    (computeResolvedWaypointsHeap heap targetConnection otherConnections constants).1[j]?
      = heap[j]? ∧
    (computeResolvedWaypointsHeap heap targetConnection otherConnections constants).2.1
      = List.range' heap.length targetConnection.waypoints.length ∧
    (targetConnection.waypoints.length < 2 →
      (computeResolvedWaypointsHeap heap targetConnection otherConnections constants).1
          = heap ++ readPoints heap targetConnection.waypoints ∧
      (computeResolvedWaypointsHeap heap targetConnection otherConnections constants).2.2
          = false) := by
  have hfresh : ∀ i ∈ List.range' heap.length targetConnection.waypoints.length, i ≠ j := by
    intro i hi
    have := copyIds_ge heap.length targetConnection.waypoints.length i hi
    omega
  have happend : (heap ++ readPoints heap targetConnection.waypoints)[j]? = heap[j]? :=
    List.getElem?_append_left hj
  rw [computeResolvedWaypointsHeap]
  simp only [List.length_range']
  split_ifs with hlen hpar hoff
  · exact ⟨happend, rfl, fun _ => ⟨rfl, rfl⟩⟩
  · refine ⟨?_, rfl, fun hc => absurd hc hlen⟩
    rw [nudge_heap_fold_frame targetConnection constants _ j hfresh]
    rw [applyDriftToWaypointsHeap_frame _ _ _ j hfresh]
    exact happend
  · refine ⟨?_, rfl, fun hc => absurd hc hlen⟩
    rw [nudge_heap_fold_frame targetConnection constants _ j hfresh]
    exact happend
  · refine ⟨?_, rfl, fun hc => absurd hc hlen⟩
    rw [nudge_heap_fold_frame targetConnection constants _ j hfresh]
    exact happend

/-- Witness for C10: a concrete two-point heap, a target referencing both
cells and one other connection; cell 0 is unchanged, the returned copy is
fresh, and a 1-waypoint target returns the copy unmodified. -/
theorem computeResolvedWaypoints_frame_witness :
    (computeResolvedWaypointsHeap [⟨0, 0⟩, ⟨100, 0⟩]
      ⟨"a", [0, 1], "S", "T"⟩ [⟨"b", [0, 1], "S", "T"⟩]
      DEFAULT_LAYOUT_CONSTANTS).1[0]? = some ⟨0, 0⟩ ∧
    (computeResolvedWaypointsHeap [⟨0, 0⟩, ⟨100, 0⟩]
      ⟨"a", [0, 1], "S", "T"⟩ [⟨"b", [0, 1], "S", "T"⟩]
      DEFAULT_LAYOUT_CONSTANTS).2.1 = [2, 3] := by
  have h := computeResolvedWaypoints_frame [⟨0, 0⟩, ⟨100, 0⟩]
    ⟨"a", [0, 1], "S", "T"⟩ [⟨"b", [0, 1], "S", "T"⟩]
    DEFAULT_LAYOUT_CONSTANTS 0 (by norm_num)
  refine ⟨?_, ?_⟩
  · rw [h.1]; rfl
  · rw [h.2.1]; rfl

end BpmnLayout
